import Mathlib

/-!
# rest-weasyprint: option sanitisation, argument construction, request flow

A shallow embedding of `cmd/weasyprint.go`, `cmd/types.go`, `cmd/config.go`,
`cmd/file_utils.go`, `cmd/share_services.go` and `cmd/handlers.go`:

* `Value` models the dynamic values a Go `interface{}` can hold when it is
  read out of a `map[string]interface{}`;
* a raw options map is the list of its entries in the order in which the
  `range` loop of `validateOptions` visits them (a Go map has pairwise distinct
  keys and an unspecified iteration order);
* `validateOptions`, `parseIntValue`, `isValidPDFVariant`, `getDefaultOptions`
  and `buildWeasyPrintArgs` follow the source statement by statement; logging
  is omitted, it has no effect on the returned values;
* the outcomes of file, process and network operations are inputs (`Env`,
  `TempFileEnv`, `ShareEnv`), and the parsers and tables of the standard
  library that the code calls are the fields of `Library`;
* a handler returns the `Response` it sends: an `http.Error` call with its
  message and status code, the JSON of a share response, the PDF, or a PDF
  stream that was already under way when `http.Error` was called.
-/

namespace RestWeasyprint

/-! ## Dynamic values -/

/-- A Go `float64`. A finite value is `(-1)^neg * mant * 2^exp`. -/
inductive Float64 where
  | finite (neg : Bool) (mant : Nat) (exp : Int)
  | inf (neg : Bool)
  | nan
  deriving DecidableEq, Repr

/-- A value stored in a `map[string]interface{}`, by dynamic type. `other`
stands for every dynamic type that none of the type switches mentions
(slices, nested maps, ...). -/
inductive Value where
  | null
  | bool (b : Bool)
  | int (i : Int)
  | float64 (f : Float64)
  | str (s : String)
  | other
  deriving DecidableEq, Repr

/-- The entries of a `map[string]interface{}` in iteration order. -/
abbrev RawOptions := List (String × Value)

/-- The keys of a raw map. -/
def keys (raw : RawOptions) : List String := raw.map Prod.fst

/-- The value stored under `k`, if any. -/
def lookup (k : String) : RawOptions → Option Value
  | [] => none
  | (k', v) :: rest => if k' = k then some v else lookup k rest

/-- The map with key `k` deleted. -/
def remove (k : String) (raw : RawOptions) : RawOptions :=
  raw.filter (fun e => decide (e.1 ≠ k))

/-! ## Library functions used by the source -/

def minInt64 : Int := -(2 ^ 63)
def maxInt64 : Int := 2 ^ 63 - 1

/-- Discard the fraction of a finite float: the magnitude `mant * 2^exp`
rounded down, with the sign put back. -/
def truncTowardZero (neg : Bool) (mant : Nat) (exp : Int) : Int :=
  let mag : Nat := if 0 ≤ exp then mant * 2 ^ exp.toNat else mant / 2 ^ (-exp).toNat
  if neg then -(mag : Int) else (mag : Int)

/-- The conversion `int(v)` of a `float64` on a 64-bit target: truncation
toward zero when the result fits in an `int`; otherwise (too large, infinite or
NaN) the conversion instruction of amd64 yields the smallest `int`. -/
def float64ToInt : Float64 → Int
  | .finite neg mant exp =>
    let t := truncTowardZero neg mant exp
    if minInt64 ≤ t ∧ t ≤ maxInt64 then t else minInt64
  | .inf _ => minInt64
  | .nan => minInt64

def isDigit (c : Char) : Bool := decide ('0' ≤ c ∧ c ≤ '9')

def digitVal (c : Char) : Nat := c.toNat - '0'.toNat

/-- The number written by a string of decimal digits, read left to right. -/
def digitsValue (ds : List Char) : Nat :=
  ds.foldl (fun n c => n * 10 + digitVal c) 0

/-- Split an optional leading sign off a character list. -/
def splitSign : List Char → Bool × List Char
  | [] => (false, [])
  | c :: rest =>
    if c = '-' then (true, rest)
    else if c = '+' then (false, rest)
    else (false, c :: rest)

/-- Base-10 integer syntax: an optional sign followed by one or more decimal
digits and nothing else. The value is not bounded. -/
def parseDecimal (s : String) : Option Int :=
  let (neg, ds) := splitSign s.toList
  if ds.isEmpty then none
  else if ds.all isDigit then
    some (if neg then -(digitsValue ds : Int) else (digitsValue ds : Int))
  else none

/-- The function `strconv.Atoi`: base-10 syntax, and an error when the value
does not fit in a 64-bit `int`. `none` stands for a non-nil error. -/
def Atoi (s : String) : Option Int :=
  match parseDecimal s with
  | some n => if minInt64 ≤ n ∧ n ≤ maxInt64 then some n else none
  | none => none

/-- The decimal digits of `n`, most significant first; `fuel` bounds the number
of digits produced. -/
def decimalDigits : Nat → Nat → List Char → List Char
  | 0, _, acc => acc
  | fuel + 1, n, acc =>
    let acc' := Char.ofNat ('0'.toNat + n % 10) :: acc
    if n / 10 = 0 then acc' else decimalDigits fuel (n / 10) acc'

/-- The function `strconv.Itoa`: the decimal rendering of an `int`. -/
def Itoa (n : Int) : String :=
  let body := String.mk (decimalDigits (n.natAbs + 1) n.natAbs [])
  if n < 0 then "-" ++ body else body

/-! ## `cmd/types.go` -/

/-- The record `WeasyPrintOptions`. -/
@[ext]
structure WeasyPrintOptions where
  Encoding : String
  MediaType : String
  BaseURL : String
  PDFIdentifier : String
  PDFVariant : String
  PDFVersion : String
  PDFForms : Bool
  UncompressedPDF : Bool
  CustomMetadata : Bool
  PresentationalHints : Bool
  SRGB : Bool
  OptimizeImages : Bool
  FullFonts : Bool
  Hinting : Bool
  JPEGQuality : Int
  DPI : Int
  CacheFolder : String
  Timeout : Int
  Verbose : Bool
  Debug : Bool
  Quiet : Bool
  deriving DecidableEq, Repr

/-- The zero value of `WeasyPrintOptions`. -/
def zeroOptions : WeasyPrintOptions :=
  { Encoding := "", MediaType := "", BaseURL := "", PDFIdentifier := "",
    PDFVariant := "", PDFVersion := "", PDFForms := false,
    UncompressedPDF := false, CustomMetadata := false,
    PresentationalHints := false, SRGB := false, OptimizeImages := false,
    FullFonts := false, Hinting := false, JPEGQuality := 0, DPI := 0,
    CacheFolder := "", Timeout := 0, Verbose := false, Debug := false,
    Quiet := false }

/-! ## `cmd/weasyprint.go` -/

/-- The function `buildWeasyPrintArgs`; `none` is the nil pointer. Each `if`
of the source appends to the running `args`. -/
def buildWeasyPrintArgs (options : Option WeasyPrintOptions) : List String :=
  let args : List String := []
  match options with
  | none => args
  | some options =>
    let args := if options.Encoding ≠ "" then args ++ ["--encoding", options.Encoding] else args
    let args := if options.MediaType ≠ "" ∧ options.MediaType ≠ "print" then
      args ++ ["--media-type", options.MediaType] else args
    let args := if options.BaseURL ≠ "" then args ++ ["--base-url", options.BaseURL] else args
    let args := if options.PDFIdentifier ≠ "" then
      args ++ ["--pdf-identifier", options.PDFIdentifier] else args
    let args := if options.PDFVariant ≠ "" then
      args ++ ["--pdf-variant", options.PDFVariant] else args
    let args := if options.PDFVersion ≠ "" then
      args ++ ["--pdf-version", options.PDFVersion] else args
    let args := if options.PDFForms then args ++ ["--pdf-forms"] else args
    let args := if options.UncompressedPDF then args ++ ["--uncompressed-pdf"] else args
    let args := if options.CustomMetadata then args ++ ["--custom-metadata"] else args
    let args := if options.PresentationalHints then
      args ++ ["--presentational-hints"] else args
    let args := if options.SRGB then args ++ ["--srgb"] else args
    let args := if options.OptimizeImages then args ++ ["--optimize-images"] else args
    let args := if options.FullFonts then args ++ ["--full-fonts"] else args
    let args := if options.Hinting then args ++ ["--hinting"] else args
    let args := if options.JPEGQuality > 0 ∧ options.JPEGQuality ≠ 80 then
      args ++ ["--jpeg-quality", Itoa options.JPEGQuality] else args
    let args := if options.DPI > 0 ∧ options.DPI ≠ 96 then
      args ++ ["--dpi", Itoa options.DPI] else args
    let args := if options.CacheFolder ≠ "" then
      args ++ ["--cache-folder", options.CacheFolder] else args
    let args := if options.Timeout > 0 ∧ options.Timeout ≠ 30 then
      args ++ ["--timeout", Itoa options.Timeout] else args
    let args := if options.Verbose then args ++ ["--verbose"] else args
    let args := if options.Debug then args ++ ["--debug"] else args
    let args := if options.Quiet then args ++ ["--quiet"] else args
    args

/-- The function `getDefaultOptions`. -/
def getDefaultOptions : WeasyPrintOptions :=
  { zeroOptions with MediaType := "print" }

/-- The keys of the map literal `safeOptions`, in source order. -/
def safeOptionNames : List String :=
  ["encoding", "media_type", "base_url",
   "pdf_identifier", "pdf_variant", "pdf_version", "pdf_forms",
   "uncompressed_pdf", "custom_metadata", "presentational_hints",
   "srgb", "optimize_images", "full_fonts", "hinting",
   "jpeg_quality", "dpi", "timeout",
   "verbose", "debug", "quiet"]

/-- The lookup `safeOptions[key]`: every listed key maps to `true`, and a
missing key reads as `false`. -/
def safeOptions (key : String) : Bool := safeOptionNames.contains key

/-- The slice `validVariants` of `isValidPDFVariant`. -/
def validVariants : List String :=
  ["pdf/a-1b", "pdf/a-2b", "pdf/a-3b", "pdf/a-4b",
   "pdf/a-2u", "pdf/a-3u", "pdf/a-4u",
   "pdf/ua-1", "debug"]

/-- The function `isValidPDFVariant`: a linear search through `validVariants`. -/
def isValidPDFVariant (variant : String) : Bool :=
  validVariants.any (fun valid => decide (variant = valid))

/-- The function `parseIntValue`. -/
def parseIntValue (value : Value) (min max : Int) : Int :=
  let checked (intVal : Int) : Int := if intVal < min ∨ intVal > max then 0 else intVal
  match value with
  | .int v => checked v
  | .float64 v => checked (float64ToInt v)
  | .str v =>
    match Atoi v with
    | some parsed => checked parsed
    | none => 0
  | _ => 0

/-- The type assertion `value.(string)` followed by an assignment. -/
def asString (value : Value) (old : String) : String :=
  match value with
  | .str s => s
  | _ => old

/-- The type assertion `value.(bool)` followed by an assignment. -/
def asBool (value : Value) (old : Bool) : Bool :=
  match value with
  | .bool b => b
  | _ => old

/-- One iteration of the `range` loop of `validateOptions`. -/
def validateStep (result : WeasyPrintOptions) (key : String) (value : Value) :
    WeasyPrintOptions :=
  if ¬ safeOptions key then result
  else if key = "encoding" then { result with Encoding := asString value result.Encoding }
  else if key = "media_type" then { result with MediaType := asString value result.MediaType }
  else if key = "base_url" then { result with BaseURL := asString value result.BaseURL }
  else if key = "pdf_identifier" then
    { result with PDFIdentifier := asString value result.PDFIdentifier }
  else if key = "pdf_variant" then
    match value with
    | .str s => if isValidPDFVariant s then { result with PDFVariant := s } else result
    | _ => result
  else if key = "pdf_version" then { result with PDFVersion := asString value result.PDFVersion }
  else if key = "pdf_forms" then { result with PDFForms := asBool value result.PDFForms }
  else if key = "uncompressed_pdf" then
    { result with UncompressedPDF := asBool value result.UncompressedPDF }
  else if key = "custom_metadata" then
    { result with CustomMetadata := asBool value result.CustomMetadata }
  else if key = "presentational_hints" then
    { result with PresentationalHints := asBool value result.PresentationalHints }
  else if key = "srgb" then { result with SRGB := asBool value result.SRGB }
  else if key = "optimize_images" then
    { result with OptimizeImages := asBool value result.OptimizeImages }
  else if key = "full_fonts" then { result with FullFonts := asBool value result.FullFonts }
  else if key = "hinting" then { result with Hinting := asBool value result.Hinting }
  else if key = "jpeg_quality" then
    let quality := parseIntValue value 0 95
    if quality > 0 then { result with JPEGQuality := quality } else result
  else if key = "dpi" then
    let dpi := parseIntValue value 50 600
    if dpi > 0 then { result with DPI := dpi } else result
  else if key = "timeout" then
    let timeout := parseIntValue value 1 300
    if timeout > 0 then { result with Timeout := timeout } else result
  else if key = "verbose" then { result with Verbose := asBool value result.Verbose }
  else if key = "debug" then { result with Debug := asBool value result.Debug }
  else if key = "quiet" then { result with Quiet := asBool value result.Quiet }
  else result

/-- The function `validateOptions`: the loop over the entries of the map,
starting from the default record. -/
def validateOptions (options : RawOptions) : WeasyPrintOptions :=
  options.foldl (fun result entry => validateStep result entry.1 entry.2) getDefaultOptions

/-! ## Per-key view of the validator

Definitions used to state what the loop computes: the effect of one entry on
one field, and the record obtained by reading each recognised key once. -/

/-- The effect of a `pdf_variant` entry on the field `PDFVariant`. -/
def variantUpdate (value : Value) (old : String) : String :=
  match value with
  | .str s => if isValidPDFVariant s then s else old
  | _ => old

/-- The effect of a range-checked integer entry on its field. -/
def intUpdate (min max : Int) (value : Value) (old : Int) : Int :=
  if parseIntValue value min max > 0 then parseIntValue value min max else old

/-- The record after one loop iteration, field by field. -/
def stepFields (r : WeasyPrintOptions) (k : String) (v : Value) : WeasyPrintOptions :=
  { Encoding := if k = "encoding" then asString v r.Encoding else r.Encoding
    MediaType := if k = "media_type" then asString v r.MediaType else r.MediaType
    BaseURL := if k = "base_url" then asString v r.BaseURL else r.BaseURL
    PDFIdentifier := if k = "pdf_identifier" then asString v r.PDFIdentifier else r.PDFIdentifier
    PDFVariant := if k = "pdf_variant" then variantUpdate v r.PDFVariant else r.PDFVariant
    PDFVersion := if k = "pdf_version" then asString v r.PDFVersion else r.PDFVersion
    PDFForms := if k = "pdf_forms" then asBool v r.PDFForms else r.PDFForms
    UncompressedPDF :=
      if k = "uncompressed_pdf" then asBool v r.UncompressedPDF else r.UncompressedPDF
    CustomMetadata :=
      if k = "custom_metadata" then asBool v r.CustomMetadata else r.CustomMetadata
    PresentationalHints :=
      if k = "presentational_hints" then asBool v r.PresentationalHints
      else r.PresentationalHints
    SRGB := if k = "srgb" then asBool v r.SRGB else r.SRGB
    OptimizeImages := if k = "optimize_images" then asBool v r.OptimizeImages else r.OptimizeImages
    FullFonts := if k = "full_fonts" then asBool v r.FullFonts else r.FullFonts
    Hinting := if k = "hinting" then asBool v r.Hinting else r.Hinting
    JPEGQuality := if k = "jpeg_quality" then intUpdate 0 95 v r.JPEGQuality else r.JPEGQuality
    DPI := if k = "dpi" then intUpdate 50 600 v r.DPI else r.DPI
    CacheFolder := r.CacheFolder
    Timeout := if k = "timeout" then intUpdate 1 300 v r.Timeout else r.Timeout
    Verbose := if k = "verbose" then asBool v r.Verbose else r.Verbose
    Debug := if k = "debug" then asBool v r.Debug else r.Debug
    Quiet := if k = "quiet" then asBool v r.Quiet else r.Quiet }

/-- Apply `u` to the value stored under `k`, when there is one. -/
def onKey {T : Type} (raw : RawOptions) (k : String) (u : Value → T → T) (d : T) : T :=
  match lookup k raw with
  | some v => u v d
  | none => d

/-- The record obtained from `r` by reading every recognised key of `raw`
once. -/
def overlay (raw : RawOptions) (r : WeasyPrintOptions) : WeasyPrintOptions :=
  { Encoding := onKey raw "encoding" asString r.Encoding
    MediaType := onKey raw "media_type" asString r.MediaType
    BaseURL := onKey raw "base_url" asString r.BaseURL
    PDFIdentifier := onKey raw "pdf_identifier" asString r.PDFIdentifier
    PDFVariant := onKey raw "pdf_variant" variantUpdate r.PDFVariant
    PDFVersion := onKey raw "pdf_version" asString r.PDFVersion
    PDFForms := onKey raw "pdf_forms" asBool r.PDFForms
    UncompressedPDF := onKey raw "uncompressed_pdf" asBool r.UncompressedPDF
    CustomMetadata := onKey raw "custom_metadata" asBool r.CustomMetadata
    PresentationalHints := onKey raw "presentational_hints" asBool r.PresentationalHints
    SRGB := onKey raw "srgb" asBool r.SRGB
    OptimizeImages := onKey raw "optimize_images" asBool r.OptimizeImages
    FullFonts := onKey raw "full_fonts" asBool r.FullFonts
    Hinting := onKey raw "hinting" asBool r.Hinting
    JPEGQuality := onKey raw "jpeg_quality" (intUpdate 0 95) r.JPEGQuality
    DPI := onKey raw "dpi" (intUpdate 50 600) r.DPI
    CacheFolder := r.CacheFolder
    Timeout := onKey raw "timeout" (intUpdate 1 300) r.Timeout
    Verbose := onKey raw "verbose" asBool r.Verbose
    Debug := onKey raw "debug" asBool r.Debug
    Quiet := onKey raw "quiet" asBool r.Quiet }

/-! ## Argument groups

The contribution of one field to the argument sequence, as the specification
words it. -/

/-- A string field contributes `[flag, value]` when the value is non-empty. -/
def strGroup (flag value : String) : List String :=
  if value ≠ "" then [flag, value] else []

/-- The media type contributes its pair when non-empty and not `print`. -/
def mediaTypeGroup (value : String) : List String :=
  if value ≠ "" ∧ value ≠ "print" then ["--media-type", value] else []

/-- A boolean field contributes `[flag]` when true. -/
def boolGroup (flag : String) (b : Bool) : List String :=
  if b then [flag] else []

/-- An integer field contributes `[flag, decimal]` when the value is positive
and differs from the default of the tool. -/
def intGroup (flag : String) (toolDefault value : Int) : List String :=
  if value > 0 ∧ value ≠ toolDefault then [flag, Itoa value] else []

/-- The groups of the fields that precede `cache_folder`. -/
def groupsBeforeCache (o : WeasyPrintOptions) : List String :=
  strGroup "--encoding" o.Encoding ++ (mediaTypeGroup o.MediaType ++
  (strGroup "--base-url" o.BaseURL ++ (strGroup "--pdf-identifier" o.PDFIdentifier ++
  (strGroup "--pdf-variant" o.PDFVariant ++ (strGroup "--pdf-version" o.PDFVersion ++
  (boolGroup "--pdf-forms" o.PDFForms ++ (boolGroup "--uncompressed-pdf" o.UncompressedPDF ++
  (boolGroup "--custom-metadata" o.CustomMetadata ++
  (boolGroup "--presentational-hints" o.PresentationalHints ++
  (boolGroup "--srgb" o.SRGB ++ (boolGroup "--optimize-images" o.OptimizeImages ++
  (boolGroup "--full-fonts" o.FullFonts ++ (boolGroup "--hinting" o.Hinting ++
  (intGroup "--jpeg-quality" 80 o.JPEGQuality ++ intGroup "--dpi" 96 o.DPI))))))))))))))

/-- The groups of the fields that follow `cache_folder`. -/
def groupsAfterCache (o : WeasyPrintOptions) : List String :=
  intGroup "--timeout" 30 o.Timeout ++ (boolGroup "--verbose" o.Verbose ++
  (boolGroup "--debug" o.Debug ++ boolGroup "--quiet" o.Quiet))

/-- The argument sequence as the concatenation of all groups in field order. -/
def groupedArgs (o : WeasyPrintOptions) : List String :=
  groupsBeforeCache o ++ (strGroup "--cache-folder" o.CacheFolder ++ groupsAfterCache o)

/-! ## The integer rule and the record invariant, as specified -/

/-- The integer a raw value denotes: the value itself when integer-typed, the
value truncated toward zero when floating-point-typed (undefined for an
infinity or a NaN), the base-10 parse when string-typed, and undefined for
every other type. -/
def specInt : Value → Option Int
  | .int i => some i
  | .float64 (.finite neg mant exp) => some (truncTowardZero neg mant exp)
  | .str s => parseDecimal s
  | _ => none

/-- The field an integer key with range `[lo, hi]` receives from the raw value
`v`: the denoted integer when it is defined and in range, and 0 otherwise. -/
def specIntField (lo hi : Int) (v : Value) : Int :=
  match specInt v with
  | some n => if lo ≤ n ∧ n ≤ hi then n else 0
  | none => 0

/-- The invariant of a sanitised record. -/
def RenderInvariant (o : WeasyPrintOptions) : Prop :=
  (o.PDFVariant = "" ∨
    o.PDFVariant ∈ ["pdf/a-1b", "pdf/a-2b", "pdf/a-3b", "pdf/a-4b", "pdf/a-2u",
      "pdf/a-3u", "pdf/a-4u", "pdf/ua-1", "debug"]) ∧
  (o.JPEGQuality = 0 ∨ (0 ≤ o.JPEGQuality ∧ o.JPEGQuality ≤ 95)) ∧
  (o.DPI = 0 ∨ (50 ≤ o.DPI ∧ o.DPI ≤ 600)) ∧
  (o.Timeout = 0 ∨ (1 ≤ o.Timeout ∧ o.Timeout ≤ 300)) ∧
  o.CacheFolder = ""

instance (o : WeasyPrintOptions) : Decidable (RenderInvariant o) := by
  unfold RenderInvariant
  infer_instance

/-! ## Typed view of an argument sequence -/

/-- One group of an argument sequence: a lone flag, or a flag followed by its
value. -/
inductive ArgGroup where
  | single (flag : String)
  | pair (flag value : String)
  deriving DecidableEq, Repr

/-- The string in the flag position of a group. -/
def ArgGroup.flag : ArgGroup → String
  | .single f => f
  | .pair f _ => f

/-- The arguments a group stands for. -/
def ArgGroup.render : ArgGroup → List String
  | .single f => [f]
  | .pair f v => [f, v]

/-- The concatenation of the groups. -/
def renderGroups : List ArgGroup → List String
  | [] => []
  | g :: gs => g.render ++ renderGroups gs

/-- The fixed set of flags that stand alone. -/
def booleanFlags : List String :=
  ["--pdf-forms", "--uncompressed-pdf", "--custom-metadata", "--presentational-hints",
   "--srgb", "--optimize-images", "--full-fonts", "--hinting", "--verbose", "--debug",
   "--quiet"]

/-- The fixed set of flags that take a value. -/
def valueFlags : List String :=
  ["--encoding", "--media-type", "--base-url", "--pdf-identifier", "--pdf-variant",
   "--pdf-version", "--jpeg-quality", "--dpi", "--timeout"]

/-- The raw key whose string value follows each string-valued flag. -/
def stringFlagKeys : List (String × String) :=
  [("--encoding", "encoding"), ("--media-type", "media_type"), ("--base-url", "base_url"),
   ("--pdf-identifier", "pdf_identifier"), ("--pdf-variant", "pdf_variant"),
   ("--pdf-version", "pdf_version")]

/-- The range of the integer rendered after each integer-valued flag. -/
def intFlagRanges : List (String × Int × Int) :=
  [("--jpeg-quality", 1, 95), ("--dpi", 50, 600), ("--timeout", 1, 300)]

/-- The raw key that switches each lone flag on. -/
def boolFlagKeys : List (String × String) :=
  [("--pdf-forms", "pdf_forms"), ("--uncompressed-pdf", "uncompressed_pdf"),
   ("--custom-metadata", "custom_metadata"),
   ("--presentational-hints", "presentational_hints"), ("--srgb", "srgb"),
   ("--optimize-images", "optimize_images"), ("--full-fonts", "full_fonts"),
   ("--hinting", "hinting"), ("--verbose", "verbose"), ("--debug", "debug"),
   ("--quiet", "quiet")]

/-- A group that the raw map `raw` accounts for: its flag is one of the fixed
flags; a lone flag is switched on by the boolean `true` under its key; the
value of a pair is the string the client stored under the key of the flag, or
the decimal rendering of an integer in the range of the flag. -/
def groupAllowed (raw : RawOptions) : ArgGroup → Prop
  | .single f =>
    f ∈ booleanFlags ∧ ∃ key, (f, key) ∈ boolFlagKeys ∧ lookup key raw = some (.bool true)
  | .pair f v =>
    f ∈ valueFlags ∧
    ((∃ key, (f, key) ∈ stringFlagKeys ∧ lookup key raw = some (.str v)) ∨
     (∃ lo hi n, (f, lo, hi) ∈ intFlagRanges ∧ lo ≤ n ∧ n ≤ hi ∧ v = Itoa n))

/-- A group as the claim words it, without regard to the raw map: a lone flag
from the fixed boolean set, or a pair whose flag is from the fixed value-taking
set. -/
def groupWellFormed : ArgGroup → Prop
  | .single f => f ∈ booleanFlags
  | .pair f _ => f ∈ valueFlags

/-- The group of a string field. -/
def strPair (flag value : String) : List ArgGroup :=
  if value ≠ "" then [.pair flag value] else []

/-- The group of the media type. -/
def mediaTypePair (value : String) : List ArgGroup :=
  if value ≠ "" ∧ value ≠ "print" then [.pair "--media-type" value] else []

/-- The group of a boolean field. -/
def boolSingle (flag : String) (b : Bool) : List ArgGroup :=
  if b then [.single flag] else []

/-- The group of an integer field. -/
def intPair (flag : String) (toolDefault value : Int) : List ArgGroup :=
  if value > 0 ∧ value ≠ toolDefault then [.pair flag (Itoa value)] else []

/-- The groups of a record, in field order, without the cache folder. -/
def optionGroups (o : WeasyPrintOptions) : List ArgGroup :=
  strPair "--encoding" o.Encoding ++ (mediaTypePair o.MediaType ++
  (strPair "--base-url" o.BaseURL ++ (strPair "--pdf-identifier" o.PDFIdentifier ++
  (strPair "--pdf-variant" o.PDFVariant ++ (strPair "--pdf-version" o.PDFVersion ++
  (boolSingle "--pdf-forms" o.PDFForms ++ (boolSingle "--uncompressed-pdf" o.UncompressedPDF ++
  (boolSingle "--custom-metadata" o.CustomMetadata ++
  (boolSingle "--presentational-hints" o.PresentationalHints ++
  (boolSingle "--srgb" o.SRGB ++ (boolSingle "--optimize-images" o.OptimizeImages ++
  (boolSingle "--full-fonts" o.FullFonts ++ (boolSingle "--hinting" o.Hinting ++
  (intPair "--jpeg-quality" 80 o.JPEGQuality ++ (intPair "--dpi" 96 o.DPI ++
  (intPair "--timeout" 30 o.Timeout ++ (boolSingle "--verbose" o.Verbose ++
  (boolSingle "--debug" o.Debug ++ boolSingle "--quiet" o.Quiet))))))))))))))))))

/-! ## Type mismatches -/

/-- The keys whose value must be a string and is taken verbatim. -/
def stringKeys : List String :=
  ["encoding", "media_type", "base_url", "pdf_identifier", "pdf_version"]

/-- The keys whose value must be a boolean. -/
def boolKeys : List String :=
  ["pdf_forms", "uncompressed_pdf", "custom_metadata", "presentational_hints", "srgb",
   "optimize_images", "full_fonts", "hinting", "verbose", "debug", "quiet"]

/-- A string key with a value that is not a string, or a boolean key with a
value that is not a boolean. -/
def typeMismatch (k : String) (v : Value) : Bool :=
  match v with
  | .str _ => boolKeys.contains k
  | .bool _ => stringKeys.contains k
  | _ => stringKeys.contains k || boolKeys.contains k

/-! ## Standard-library functions of the remaining files -/

/-- The decoded body of a file.io answer. -/
structure FileIOResp where
  Success : Bool
  Key : String
  Link : String
  Expiry : String
  deriving DecidableEq, Repr

/-- The decoded body of a ki.tc answer; the only field is `file.download_page`. -/
structure KITCResp where
  DownloadPage : String
  deriving DecidableEq, Repr

/-- The struct `HTMLRequest`; `Options` is `none` for a nil map. -/
structure HTMLRequest where
  HTML : String
  Options : Option RawOptions
  ShareService : String

/-- The parsers and tables of the Go standard library that the repository
calls and does not contain: `unicode.ToLower` above ASCII, whether `url.Parse`
returns a nil error, `filepath.Join`, and the JSON decoders for the four
shapes the code decodes into (`none` or `error` stands for a non-nil error). -/
structure Library where
  unicodeLower : Char → Char
  urlParse : String → Bool
  filepathJoin : String → String → String
  decodeOptions : String → Option RawOptions
  decodeHTMLRequest : String → Except String HTMLRequest
  decodeFileIO : String → Except String FileIOResp
  decodeKITC : String → Except String KITCResp

/-- The function `strings.HasPrefix`. -/
def HasPrefix (s pre : String) : Bool := pre.toList.isPrefixOf s.toList

/-- The function `strings.HasSuffix`. -/
def HasSuffix (s suf : String) : Bool := suf.toList.isSuffixOf s.toList

/-- The predicate `unicode.IsSpace`: the code points with the property
White_Space. -/
def isSpace (c : Char) : Bool :=
  let n := c.toNat
  decide ((0x09 ≤ n ∧ n ≤ 0x0d) ∨ n = 0x20 ∨ n = 0x85 ∨ n = 0xa0 ∨ n = 0x1680 ∨
    (0x2000 ≤ n ∧ n ≤ 0x200a) ∨ n = 0x2028 ∨ n = 0x2029 ∨ n = 0x202f ∨ n = 0x205f ∨
    n = 0x3000)

/-- The function `strings.TrimSpace`: leading and trailing white space removed. -/
def TrimSpace (s : String) : String :=
  String.mk ((s.toList.dropWhile isSpace).rdropWhile isSpace)

/-- The function `unicode.ToLower` on one rune: the ASCII letters are shifted,
everything above ASCII goes through the table of the library. -/
def toLowerRune (lib : Library) (c : Char) : Char :=
  if c.toNat < 128 then
    if 'A' ≤ c ∧ c ≤ 'Z' then Char.ofNat (c.toNat + ('a'.toNat - 'A'.toNat)) else c
  else lib.unicodeLower c

/-- The function `strings.ToLower`: every rune mapped to lower case. -/
def ToLower (lib : Library) (s : String) : String :=
  String.mk (s.toList.map (toLowerRune lib))

/-- The method `url.Values.Get`: the empty string when the parameter is
absent. -/
def queryGet (param : Option String) : String := param.getD ""

/-! ## `cmd/config.go` -/

def DefaultTimeoutSeconds : Int := 30
def DefaultPageMargin : String := "2cm 2.5cm"
def DefaultPageSize : String := "A4"

/-- The function `getTimeoutFromEnv`; `env` is the value of the variable
`WEB_TIME_OUT_SECOND`, `none` when it is unset (`os.Getenv` then returns the
empty string). -/
def getTimeoutFromEnv (env : Option String) : Int :=
  let timeoutSeconds := DefaultTimeoutSeconds
  let envTimeout := env.getD ""
  if envTimeout ≠ "" then
    match Atoi envTimeout with
    | some parsedTimeout => if parsedTimeout > 0 then parsedTimeout else timeoutSeconds
    | none => timeoutSeconds
  else timeoutSeconds

/-! ## `cmd/types.go`, continued -/

/-- The type `FileShareService`, a string. -/
abbrev FileShareService := String

def NoShare : FileShareService := ""
def FileIO : FileShareService := "file.io"
def KITC : FileShareService := "ki.tc"
def CVSH : FileShareService := "c-v.sh"

/-- The struct `UploadedFileInfo`; `Options` is a pointer. -/
structure UploadedFileInfo where
  HTMLPath : String
  CSSPaths : List String
  Attachments : List String
  Options : Option WeasyPrintOptions
  Filename : String
  ShareService : FileShareService
  deriving DecidableEq, Repr

/-- The struct `ShareResponse`. -/
structure ShareResponse where
  Link : String
  Service : String
  Success : Bool
  Message : String
  Filename : String
  deriving DecidableEq, Repr

/-! ## `cmd/weasyprint.go`, the two invocation modes -/

/-- The function `executeWeasyPrint`; `run args` is the error of `cmd.Run()`
for the renderer started with `args`, `none` when it exits with status 0. The
result is the returned error. -/
def executeWeasyPrint (run : List String → Option String) (args : List String) :
    Option String :=
  match run args with
  | some err => some ("weasyprint execution failed: " ++ err)
  | none => none

/-- The argument sequence that `generatePDFFromFiles` hands to
`executeWeasyPrint`. -/
def generatePDFFromFilesArgs (fileInfo : UploadedFileInfo) : List String :=
  let args := buildWeasyPrintArgs fileInfo.Options
  let args := fileInfo.CSSPaths.foldl (fun args cssPath => args ++ ["--stylesheet", cssPath]) args
  let args :=
    fileInfo.Attachments.foldl (fun args attachment => args ++ ["--attachment", attachment]) args
  let args := args ++ [fileInfo.HTMLPath, "-"]
  args

/-- The function `generatePDFFromFiles`. -/
def generatePDFFromFiles (run : List String → Option String) (fileInfo : UploadedFileInfo) :
    Option String :=
  executeWeasyPrint run (generatePDFFromFilesArgs fileInfo)

/-- The outcomes of the file operations of `generatePDFFromHTML`: the path
returned by `os.CreateTemp` or its error, and the errors of `WriteString` and
`Close`. -/
structure TempFileEnv where
  createTemp : Except String String
  writeErr : Option String
  closeErr : Option String

/-- Where the source argument of a renderer call comes from. -/
inductive Source where
  | url (htmlContent : String)
  | tempFile (path : String)
  deriving DecidableEq, Repr

/-- The string handed over for a source. -/
def Source.arg : Source → String
  | .url htmlContent => htmlContent
  | .tempFile path => path

/-- A call of the renderer prepared by `generatePDFFromHTML`: the arguments,
the origin of the source argument, and the temporary file written (path and
content), if any. -/
structure RendererCall where
  args : List String
  source : Source
  written : Option (String × String)
  deriving DecidableEq, Repr

/-- The local variable `isURL` of `generatePDFFromHTML`. -/
def isURL (lib : Library) (htmlContent : String) : Bool :=
  let isURL := false
  if HasPrefix htmlContent "http://" || HasPrefix htmlContent "https://" then
    if lib.urlParse htmlContent then true else isURL
  else isURL

/-- The part of `generatePDFFromHTML` before `executeWeasyPrint`: the call it
prepares, or the error it returns without starting the renderer. -/
def generatePDFFromHTMLCall (lib : Library) (fs : TempFileEnv) (htmlContent : String)
    (options : Option WeasyPrintOptions) : Except String RendererCall :=
  let args := buildWeasyPrintArgs options
  if isURL lib htmlContent then
    .ok { args := args ++ [htmlContent, "-"], source := .url htmlContent, written := none }
  else
    match fs.createTemp with
    | .error err => .error ("failed to create temporary file: " ++ err)
    | .ok tempFileName =>
      match fs.writeErr with
      | some err => .error ("failed to write HTML content: " ++ err)
      | none =>
        match fs.closeErr with
        | some err => .error ("failed to close temporary file: " ++ err)
        | none =>
          .ok { args := args ++ [tempFileName, "-"], source := .tempFile tempFileName,
                written := some (tempFileName, htmlContent) }

/-- The function `generatePDFFromHTML`; the result is the returned error. -/
def generatePDFFromHTML (lib : Library) (fs : TempFileEnv) (run : List String → Option String)
    (htmlContent : String) (options : Option WeasyPrintOptions) : Option String :=
  match generatePDFFromHTMLCall lib fs htmlContent options with
  | .error err => some err
  | .ok call => executeWeasyPrint run call.args

/-! ## `cmd/share_services.go` -/

/-- An answer of an upstream service: status code, status line, and the body
as read (`error` when reading it fails). -/
structure HTTPResponse where
  StatusCode : Nat
  Status : String
  Body : Except String String

/-- The outcomes of the steps of one upload: the errors of `CreateFormFile`,
`io.Copy`, `writer.Close` and `http.NewRequest`, and the result of
`client.Do`. -/
structure UploadTransport where
  createFormFileErr : Option String
  copyErr : Option String
  closeErr : Option String
  newRequestErr : Option String
  doResult : Except String HTTPResponse

/-- The steps that open each of the three adapters, up to the answer of the
service; the source repeats them in every adapter. -/
def postFile (t : UploadTransport) : Except String HTTPResponse :=
  match t.createFormFileErr with
  | some err => .error ("failed to create form file: " ++ err)
  | none =>
    match t.copyErr with
    | some err => .error ("failed to copy file content: " ++ err)
    | none =>
      match t.closeErr with
      | some err => .error ("failed to close multipart writer: " ++ err)
      | none =>
        match t.newRequestErr with
        | some err => .error ("failed to create request: " ++ err)
        | none =>
          match t.doResult with
          | .error err => .error ("failed to execute request: " ++ err)
          | .ok resp => .ok resp

/-- The function `uploadToFileIO`. -/
def uploadToFileIO (lib : Library) (t : UploadTransport) (filename : String) :
    Except String ShareResponse :=
  match postFile t with
  | .error err => .error err
  | .ok resp =>
    match resp.Body with
    | .error err => .error ("failed to read response: " ++ err)
    | .ok bodyBytes =>
      match lib.decodeFileIO bodyBytes with
      | .error err => .error ("failed to parse response: " ++ err)
      | .ok fileIOResp =>
        if ¬ fileIOResp.Success then .error "failed to upload to file.io"
        else
          .ok { Success := true, Link := fileIOResp.Link, Service := FileIO,
                Filename := filename, Message := "" }

/-- The function `uploadToKITC`. -/
def uploadToKITC (lib : Library) (t : UploadTransport) (filename : String) :
    Except String ShareResponse :=
  match postFile t with
  | .error err => .error err
  | .ok resp =>
    if resp.StatusCode ≠ 201 then .error ("failed to upload to ki.tc: " ++ resp.Status)
    else
      match resp.Body with
      | .error err => .error ("failed to parse response: " ++ err)
      | .ok body =>
        match lib.decodeKITC body with
        | .error err => .error ("failed to parse response: " ++ err)
        | .ok response =>
          if response.DownloadPage = "" then .error "missing download page URL in response"
          else
            .ok { Success := true, Link := response.DownloadPage, Service := KITC,
                  Filename := filename, Message := "" }

/-- The function `uploadToCVSH`. -/
def uploadToCVSH (t : UploadTransport) (filename : String) : Except String ShareResponse :=
  match postFile t with
  | .error err => .error err
  | .ok resp =>
    if resp.StatusCode ≠ 200 then .error ("failed to upload to c-v.sh: " ++ resp.Status)
    else
      match resp.Body with
      | .error err => .error ("failed to read response: " ++ err)
      | .ok urlBytes =>
        let url := TrimSpace urlBytes
        if ¬ HasPrefix url "http" then .error ("invalid URL response: " ++ url)
        else
          .ok { Success := true, Link := url, Service := CVSH, Filename := filename,
                Message := "" }

/-- The outcomes of one call of `uploadToShareService`: the error of `os.Open`
on the file, and the upload itself. -/
structure ShareEnv where
  openErr : String → Option String
  transport : UploadTransport

/-- The function `uploadToShareService`. -/
def uploadToShareService (lib : Library) (env : ShareEnv) (filePath filename : String)
    (service : FileShareService) : Except String ShareResponse :=
  match env.openErr filePath with
  | some err => .error ("failed to open PDF file: " ++ err)
  | none =>
    if service = FileIO then uploadToFileIO lib env.transport filename
    else if service = KITC then uploadToKITC lib env.transport filename
    else if service = CVSH then uploadToCVSH env.transport filename
    else .error ("unsupported sharing service: " ++ service)

/-! ## `cmd/file_utils.go` and `cmd/handlers.go` -/

/-- An uploaded file, by the name it was sent under. -/
structure FileHeader where
  Filename : String
  deriving DecidableEq, Repr

/-- A parsed multipart form: the maps `File` and `Value`, as entry lists in
iteration order. -/
structure MultipartForm where
  File : List (String × List FileHeader)
  Value : List (String × List String)

/-- The outcomes of the operating-system and renderer calls of one request:
`os.MkdirTemp`, opening an uploaded file, `os.Create` and `io.Copy` on a target
path, `os.WriteFile` on a path, the temporary file of `generatePDFFromHTML`,
`os.CreateTemp` for the PDF to share, the renderer, and the upload. The
renderer started with `args` has two outcomes: `run args` is the error of
`cmd.Run()`, and `stdout args` is what reaches its standard-output sink before
`cmd.Run()` returns, `none` when the sink is never written to and `some bytes`
when it is (the bytes may be empty when a wrapping writer commits before it
copies). -/
structure Env where
  mkdirTemp : Except String String
  openUploaded : FileHeader → Option String
  createFile : String → Option String
  copyFile : String → Option String
  writeFile : String → Option String
  tempHTML : TempFileEnv
  createTempPDF : Except String String
  run : List String → Option String
  stdout : List String → Option String
  share : ShareEnv

/-- What a handler sends back. `httpError` is an `http.Error` call on a
response that nothing was written to: its message with its status code. `json`
is the JSON encoding of a share response and `pdf` the output of the renderer
under the headers of `setPDFHeaders` for a filename, both with status 200.
`pdfThenError` is the case where the renderer wrote `output` to the response,
which sent the headers with status 200, and failed afterwards: the `http.Error`
call that follows cannot change the status any more, its message is only
appended to the body. -/
inductive Response where
  | httpError (message : String) (code : Nat)
  | json (response : ShareResponse)
  | pdf (filename : String)
  | pdfThenError (filename : String) (output : String) (message : String)
  deriving DecidableEq, Repr

/-- The status code of a response. -/
def Response.status : Response → Nat
  | .httpError _ code => code
  | .json _ => 200
  | .pdf _ => 200
  | .pdfThenError _ _ _ => 200

/-- The two outcomes of a call of the generator: the error it returns, and
what the renderer wrote to the sink it was given. -/
structure Generated where
  err : Option String
  output : Option String
  deriving DecidableEq, Repr

def StatusBadRequest : Nat := 400
def StatusInternalServerError : Nat := 500

/-- The `switch` on the share-service parameter, which occurs three times in
the source: one of the three service names selects that service, every other
value leaves the current one. -/
def switchShareService (param : String) (current : FileShareService) : FileShareService :=
  if param = FileIO then FileIO
  else if param = KITC then KITC
  else if param = CVSH then CVSH
  else current

/-- The filename block of `processUploadedFiles`: the field `Filename` after
the query parameter `filename` has been read. -/
def applyFilenameParam (lib : Library) (param : Option String) (current : String) : String :=
  let filenameValue := queryGet param
  if filenameValue.length > 0 then
    let customFilename := TrimSpace filenameValue
    if customFilename ≠ "" then
      let filename := customFilename
      if ¬ HasSuffix (ToLower lib filename) ".pdf" then filename ++ ".pdf" else filename
    else current
  else current

/-- The share-service block of `processUploadedFiles`. -/
def applyShareServiceParam (param : Option String) (current : FileShareService) :
    FileShareService :=
  let shareServiceValue := queryGet param
  if shareServiceValue.length > 0 then
    switchShareService (TrimSpace shareServiceValue) current
  else current

/-- The function `saveUploadedFile`. -/
def saveUploadedFile (lib : Library) (env : Env) (fileHeader : FileHeader)
    (tempDir : String) : Except String String :=
  match env.openUploaded fileHeader with
  | some err => .error ("failed to open uploaded file: " ++ err)
  | none =>
    let dstPath := lib.filepathJoin tempDir fileHeader.Filename
    match env.createFile dstPath with
    | some err => .error ("failed to create target file: " ++ err)
    | none =>
      match env.copyFile dstPath with
      | some err => .error ("failed to copy file content: " ++ err)
      | none => .ok dstPath

/-- The `switch` that classifies one saved file by its field name. -/
def classifyFile (fileInfo : UploadedFileInfo) (fieldName filePath : String) :
    UploadedFileInfo :=
  if fieldName = "html" then { fileInfo with HTMLPath := filePath }
  else if HasPrefix fieldName "css." then
    { fileInfo with CSSPaths := fileInfo.CSSPaths ++ [filePath] }
  else if HasPrefix fieldName "asset." then
    { fileInfo with Attachments := fileInfo.Attachments ++ [filePath] }
  else fileInfo

/-- The inner loop of `processUploadedFiles` over the files of one field. -/
def saveFieldFiles (lib : Library) (env : Env) (tempDir fieldName : String) :
    List FileHeader → UploadedFileInfo → Except String UploadedFileInfo
  | [], fileInfo => .ok fileInfo
  | fileHeader :: rest, fileInfo =>
    match saveUploadedFile lib env fileHeader tempDir with
    | .error err => .error ("failed to save file: " ++ err)
    | .ok filePath =>
      saveFieldFiles lib env tempDir fieldName rest (classifyFile fileInfo fieldName filePath)

/-- The outer loop of `processUploadedFiles` over the file fields. -/
def saveAllFiles (lib : Library) (env : Env) (tempDir : String) :
    List (String × List FileHeader) → UploadedFileInfo → Except String UploadedFileInfo
  | [], fileInfo => .ok fileInfo
  | (fieldName, files) :: rest, fileInfo =>
    match saveFieldFiles lib env tempDir fieldName files fileInfo with
    | .error err => .error err
    | .ok fileInfo => saveAllFiles lib env tempDir rest fileInfo

/-- The text of the default stylesheet. -/
def defaultCSS : String :=
  "@page \x7b size: " ++ DefaultPageSize ++ "; margin: " ++ DefaultPageMargin ++ "; \x7d"

/-- The function `createDefaultCSS`. -/
def createDefaultCSS (lib : Library) (env : Env) (tempDir : String) : Except String String :=
  let cssPath := lib.filepathJoin tempDir "default.css"
  match env.writeFile cssPath with
  | some err => .error err
  | none => .ok cssPath

/-- The lookup `form.Value[name]`. -/
def formValue (name : String) : List (String × List String) → Option (List String)
  | [] => none
  | (k, vs) :: rest => if k = name then some vs else formValue name rest

/-- The options block of `processUploadedFiles`. -/
def applyOptionsField (lib : Library) (form : MultipartForm) (fileInfo : UploadedFileInfo) :
    Except String UploadedFileInfo :=
  match formValue "options" form.Value with
  | some (first :: _) =>
    match lib.decodeOptions first with
    | none => .error "invalid JSON format options"
    | some optionsMap => .ok { fileInfo with Options := some (validateOptions optionsMap) }
  | _ => .ok fileInfo

/-- The function `processUploadedFiles`. -/
def processUploadedFiles (lib : Library) (env : Env) (queryFilename : Option String)
    (queryShareService : Option String) (form : MultipartForm) (tempDir : String) :
    Except String UploadedFileInfo :=
  let fileInfo : UploadedFileInfo :=
    { HTMLPath := "", CSSPaths := [], Attachments := [], Options := some getDefaultOptions,
      Filename := "document.pdf", ShareService := NoShare }
  let fileInfo := { fileInfo with Filename := applyFilenameParam lib queryFilename fileInfo.Filename }
  let fileInfo :=
    { fileInfo with ShareService := applyShareServiceParam queryShareService fileInfo.ShareService }
  match saveAllFiles lib env tempDir form.File fileInfo with
  | .error err => .error err
  | .ok fileInfo =>
    match applyOptionsField lib form fileInfo with
    | .error err => .error err
    | .ok fileInfo =>
      if fileInfo.HTMLPath = "" then .error "missing HTML file"
      else if fileInfo.CSSPaths.length = 0 then
        match createDefaultCSS lib env tempDir with
        | .error err => .error ("failed to create default CSS: " ++ err)
        | .ok defaultCSSPath =>
          .ok { fileInfo with CSSPaths := fileInfo.CSSPaths ++ [defaultCSSPath] }
      else .ok fileInfo

/-- The call `generatePDFFromFiles(ctx, sink, fileInfo)` with both outcomes. -/
def generatedFromFiles (env : Env) (fileInfo : UploadedFileInfo) : Generated :=
  { err := generatePDFFromFiles env.run fileInfo
    output := env.stdout (generatePDFFromFilesArgs fileInfo) }

/-- The call `generatePDFFromHTML(ctx, sink, htmlContent, options)` with both
outcomes; nothing is written when the renderer is not started. -/
def generatedFromHTML (lib : Library) (env : Env) (htmlContent : String)
    (options : Option WeasyPrintOptions) : Generated :=
  { err := generatePDFFromHTML lib env.tempHTML env.run htmlContent options
    output :=
      match generatePDFFromHTMLCall lib env.tempHTML htmlContent options with
      | .ok call => env.stdout call.args
      | .error _ => none }

/-- The tail shared by both handlers once the share service is known. With a
share service the sink of the generator is a temporary file, which is then
uploaded; nothing is written to the response before the `http.Error` or JSON
answer. Without one `setPDFHeaders` is called and the sink is the response
itself: when the generator fails after the renderer wrote to it, the status 200
is already sent and `http.Error` only appends its message. -/
def respond (lib : Library) (env : Env) (generate : Generated) (filename : String)
    (shareService : FileShareService) : Response :=
  if shareService ≠ NoShare then
    match env.createTempPDF with
    | .error _ => .httpError "Internal server error" StatusInternalServerError
    | .ok tempFileName =>
      match generate.err with
      | some _ => .httpError "PDF generation failed" StatusInternalServerError
      | none =>
        match uploadToShareService lib env.share tempFileName filename shareService with
        | .error err =>
          .httpError ("Failed to upload to sharing service: " ++ err) StatusInternalServerError
        | .ok response => .json response
  else
    match generate.err with
    | some _ =>
      match generate.output with
      | some output => .pdfThenError filename output "PDF generation failed"
      | none => .httpError "PDF generation failed" StatusInternalServerError
    | none => .pdf filename

/-- A request to `HandleFileUpload`: the Content-Type header, the result of
`ParseMultipartForm`, and the two query parameters. -/
structure UploadRequest where
  ContentType : String
  Form : Except String MultipartForm
  queryFilename : Option String
  queryShareService : Option String

/-- The function `HandleFileUpload`. -/
def HandleFileUpload (lib : Library) (env : Env) (r : UploadRequest) : Response :=
  if ¬ HasPrefix r.ContentType "multipart/form-data" then
    .httpError "multipart/form-data request required" StatusBadRequest
  else
    match r.Form with
    | .error err => .httpError ("Form parsing failed: " ++ err) StatusBadRequest
    | .ok form =>
      match env.mkdirTemp with
      | .error _ => .httpError "Internal server error" StatusInternalServerError
      | .ok tempDir =>
        match processUploadedFiles lib env r.queryFilename r.queryShareService form tempDir with
        | .error err => .httpError err StatusBadRequest
        | .ok fileInfo =>
          respond lib env (generatedFromFiles env fileInfo) fileInfo.Filename
            fileInfo.ShareService

/-- The example document of the GET branch of `HandleHTMLRender`. -/
def exampleHTML : String :=
  "\n" ++
  "\t\t<!DOCTYPE html>\n" ++
  "\t\t<html>\n" ++
  "\t\t<head>\n" ++
  "\t\t\t<meta charset=\"UTF-8\">\n" ++
  "\t\t\t<title>Test Document</title>\n" ++
  "\t\t\t<style>\n" ++
  "\t\t\t\tbody \x7b font-family: Arial, sans-serif; margin: 20px; \x7d\n" ++
  "\t\t\t\th1 \x7b color: #333; \x7d\n" ++
  "\t\t\t</style>\n" ++
  "\t\t</head>\n" ++
  "\t\t<body>\n" ++
  "\t\t\t<h1>Hello, World! 🌍</h1>\n" ++
  "\t\t\t<p>This is a test PDF document.</p>\n" ++
  "\t\t</body>\n" ++
  "\t\t</html>"

/-- A request to `HandleHTMLRender`: method, body, and the two query
parameters. -/
structure RenderRequest where
  Method : String
  Body : String
  queryFilename : Option String
  queryShareService : Option String

/-- The POST branch of `HandleHTMLRender` once the body has been decoded into
`req`. -/
def renderPost (lib : Library) (env : Env) (req : HTMLRequest) (queryFilename : Option String)
    (queryShareService : Option String) : Response :=
  let shareService : FileShareService := NoShare
  let htmlContent := req.HTML
  let filename := queryGet queryFilename
  let filename := if filename = "" then "document.pdf" else filename
  let options :=
    match req.Options with
    | some raw => validateOptions raw
    | none => getDefaultOptions
  let shareServiceParam := req.ShareService
  let shareServiceParam :=
    if shareServiceParam = "" then queryGet queryShareService else shareServiceParam
  let shareService := switchShareService shareServiceParam shareService
  respond lib env (generatedFromHTML lib env htmlContent (some options)) filename shareService

/-- The GET branch of `HandleHTMLRender`. -/
def renderGet (lib : Library) (env : Env) (queryFilename : Option String)
    (queryShareService : Option String) : Response :=
  let shareService : FileShareService := NoShare
  let htmlContent := exampleHTML
  let filename := queryGet queryFilename
  let filename := if filename = "" then "test.pdf" else filename
  let options := getDefaultOptions
  let shareServiceParam := queryGet queryShareService
  let shareService := switchShareService shareServiceParam shareService
  respond lib env (generatedFromHTML lib env htmlContent (some options)) filename shareService

/-- The function `HandleHTMLRender`. -/
def HandleHTMLRender (lib : Library) (env : Env) (r : RenderRequest) : Response :=
  if r.Method = "POST" then
    match lib.decodeHTMLRequest r.Body with
    | .error err => .httpError ("JSON format error: " ++ err) StatusBadRequest
    | .ok req => renderPost lib env req r.queryFilename r.queryShareService
  else renderGet lib env r.queryFilename r.queryShareService

/-! ## A sample library and environment

Instances on which the handlers can be evaluated: every operation succeeds,
the decoders accept every body, and the upstream service answers with status
201 and a link. -/

/-- A library instance: no case mapping above ASCII, every URL parses, paths
are joined with a slash, an options blob decodes to the empty map, a request
body is taken as the HTML, and the upstream decoders read the body as the
link. -/
def sampleLibrary : Library :=
  { unicodeLower := fun c => c
    urlParse := fun _ => true
    filepathJoin := fun dir name => dir ++ "/" ++ name
    decodeOptions := fun _ => some []
    decodeHTMLRequest := fun body => .ok { HTML := body, Options := none, ShareService := "" }
    decodeFileIO := fun body => .ok { Success := true, Key := "", Link := body, Expiry := "" }
    decodeKITC := fun body => .ok { DownloadPage := body } }

/-- An environment in which every operation succeeds. -/
def sampleEnv : Env :=
  { mkdirTemp := .ok "/tmp/pdfgen-1"
    openUploaded := fun _ => none
    createFile := fun _ => none
    copyFile := fun _ => none
    writeFile := fun _ => none
    tempHTML := { createTemp := .ok "/tmp/1.html", writeErr := none, closeErr := none }
    createTempPDF := .ok "/tmp/pdfshare-1.pdf"
    run := fun _ => none
    stdout := fun _ => some "%PDF-1.7"
    share :=
      { openErr := fun _ => none
        transport :=
          { createFormFileErr := none, copyErr := none, closeErr := none, newRequestErr := none
            doResult :=
              .ok { StatusCode := 201, Status := "201 Created",
                    Body := .ok "https://ki.tc/f/abc" } } } }

/-- The sample environment with a disk on which no file can be created. -/
def fullDiskEnv : Env :=
  { sampleEnv with
    createFile := fun path => some ("open " ++ path ++ ": no space left on device") }

/-- The sample environment with a renderer that is killed after it has started
to write the PDF. -/
def killedRendererEnv : Env :=
  { sampleEnv with run := fun _ => some "signal: killed" }

/-- The sample environment with a renderer that fails without writing. -/
def silentRendererEnv : Env :=
  { sampleEnv with run := fun _ => some "exit status 1", stdout := fun _ => none }

/-- An upload of one HTML file, with a share-service query parameter. -/
def sampleUpload (shareService : Option String) : UploadRequest :=
  { ContentType := "multipart/form-data; boundary=x"
    Form := .ok { File := [("html", [{ Filename := "index.html" }])], Value := [] }
    queryFilename := none
    queryShareService := shareService }

/-! ## The filename rule and the success predicates, as specified -/

/-- The filename the specification asks for: the default when the parameter is
absent, empty or only white space, otherwise the trimmed parameter with ".pdf"
appended unless its lower-cased form already ends in ".pdf". -/
def specFilename (lib : Library) (param : Option String) : String :=
  match param with
  | none => "document.pdf"
  | some value =>
    if TrimSpace value = "" then "document.pdf"
    else if HasSuffix (ToLower lib (TrimSpace value)) ".pdf" then TrimSpace value
    else TrimSpace value ++ ".pdf"

/-- The success predicate of file.io: the body is read, decodes, and its
success flag is true. The link is the decoded `link`. -/
def fileIOSuccess (lib : Library) (resp : HTTPResponse) (link : String) : Prop :=
  ∃ body decoded, resp.Body = .ok body ∧ lib.decodeFileIO body = .ok decoded ∧
    decoded.Success = true ∧ link = decoded.Link

/-- The success predicate of ki.tc: status 201, and the body decodes with a
non-empty `file.download_page`, which is the link. -/
def kitcSuccess (lib : Library) (resp : HTTPResponse) (link : String) : Prop :=
  resp.StatusCode = 201 ∧
  ∃ body decoded, resp.Body = .ok body ∧ lib.decodeKITC body = .ok decoded ∧
    decoded.DownloadPage ≠ "" ∧ link = decoded.DownloadPage

/-- The success predicate of c-v.sh: status 200, and the white-space-trimmed
body starts with "http"; the trimmed body is the link. -/
def cvshSuccess (resp : HTTPResponse) (link : String) : Prop :=
  resp.StatusCode = 200 ∧
  ∃ body, resp.Body = .ok body ∧ HasPrefix (TrimSpace body) "http" = true ∧
    link = TrimSpace body

/-- All steps before the answer succeed and the service answers `resp`. -/
def answered (t : UploadTransport) (resp : HTTPResponse) : Prop :=
  t.createFormFileErr = none ∧ t.copyErr = none ∧ t.closeErr = none ∧
  t.newRequestErr = none ∧ t.doResult = .ok resp

/-- Whether a string ends in ".pdf" when ASCII letter case is ignored: its
last four characters are a dot, p or P, d or D, f or F. -/
def endsInPdfIgnoringCase (s : String) : Bool :=
  match s.toList.reverse with
  | c₄ :: c₃ :: c₂ :: c₁ :: _ =>
    decide (c₁ = '.' ∧ (c₂ = 'p' ∨ c₂ = 'P') ∧ (c₃ = 'd' ∨ c₃ = 'D') ∧ (c₄ = 'f' ∨ c₄ = 'F'))
  | _ => false

/-- One pair `[flag, p]` for each path `p`, in order. -/
def pairsFor (flag : String) : List String → List String
  | [] => []
  | p :: ps => flag :: p :: pairsFor flag ps

/-! ## Lemmas on raw maps -/

theorem lookup_eq_none_of_not_mem (k : String) (raw : RawOptions)
    (h : k ∉ keys raw) : lookup k raw = none := by
  induction raw with
  | nil => rfl
  | cons e rest ih =>
    obtain ⟨k', v⟩ := e
    have hne : k' ≠ k := fun hk => h (by simp [keys, hk])
    have hrest : k ∉ keys rest := fun hk => h (by
      have : k ∈ List.map Prod.fst rest := hk
      simp [keys, this])
    simp only [lookup, if_neg hne]
    exact ih hrest

theorem mem_keys_of_mem {k : String} {v : Value} {raw : RawOptions}
    (h : (k, v) ∈ raw) : k ∈ keys raw :=
  List.mem_map.mpr ⟨(k, v), h, rfl⟩

theorem lookup_eq_some_iff (k : String) (v : Value) (raw : RawOptions)
    (hnd : (keys raw).Nodup) : lookup k raw = some v ↔ (k, v) ∈ raw := by
  induction raw with
  | nil => simp [lookup]
  | cons e rest ih =>
    obtain ⟨k', v'⟩ := e
    have hnd' : k' ∉ keys rest ∧ (keys rest).Nodup := by
      simpa [keys] using hnd
    by_cases hk : k' = k
    · subst hk
      have hl : lookup k' ((k', v') :: rest) = some v' := by simp [lookup]
      rw [hl]
      simp only [List.mem_cons, Prod.mk.injEq, true_and, Option.some.injEq]
      constructor
      · intro h; exact Or.inl h.symm
      · rintro (h | h)
        · exact h.symm
        · exact absurd (mem_keys_of_mem h) hnd'.1
    · simp only [lookup, if_neg hk, List.mem_cons, Prod.mk.injEq]
      rw [ih hnd'.2]
      constructor
      · intro h; exact Or.inr h
      · rintro (h | h)
        · exact absurd h.1.symm hk
        · exact h

theorem lookup_perm (k : String) {raw₁ raw₂ : RawOptions} (hp : raw₁.Perm raw₂)
    (hnd : (keys raw₁).Nodup) : lookup k raw₁ = lookup k raw₂ := by
  have hnd₂ : (keys raw₂).Nodup := (hp.map Prod.fst).nodup_iff.mp hnd
  apply Option.ext
  intro v
  rw [Option.mem_def, Option.mem_def, lookup_eq_some_iff k v raw₁ hnd,
    lookup_eq_some_iff k v raw₂ hnd₂]
  exact hp.mem_iff

theorem lookup_remove_self (k : String) (raw : RawOptions) :
    lookup k (remove k raw) = none := by
  apply lookup_eq_none_of_not_mem
  simp [keys, remove]

theorem lookup_remove_ne (k k' : String) (raw : RawOptions) (h : k' ≠ k) :
    lookup k' (remove k raw) = lookup k' raw := by
  induction raw with
  | nil => rfl
  | cons e rest ih =>
    obtain ⟨k₀, v₀⟩ := e
    by_cases h₀ : k₀ = k
    · subst h₀
      have hne : ¬ k₀ = k' := fun hk => h hk.symm
      have hrm : remove k₀ ((k₀, v₀) :: rest) = remove k₀ rest := by
        simp [remove]
      rw [hrm, ih]
      simp only [lookup, if_neg hne]
    · have hrm : remove k ((k₀, v₀) :: rest) = (k₀, v₀) :: remove k rest := by
        simp [remove, h₀]
      rw [hrm]
      simp only [lookup, ih]

theorem nodup_keys_remove (k : String) (raw : RawOptions) (hnd : (keys raw).Nodup) :
    (keys (remove k raw)).Nodup :=
  List.Nodup.sublist (List.Sublist.map Prod.fst (List.filter_sublist raw)) hnd

/-! ## One loop iteration -/

theorem not_safe_ne (k : String) (h : safeOptions k = false) :
    k ≠ "encoding" ∧ k ≠ "media_type" ∧ k ≠ "base_url" ∧ k ≠ "pdf_identifier" ∧
    k ≠ "pdf_variant" ∧ k ≠ "pdf_version" ∧ k ≠ "pdf_forms" ∧ k ≠ "uncompressed_pdf" ∧
    k ≠ "custom_metadata" ∧ k ≠ "presentational_hints" ∧ k ≠ "srgb" ∧
    k ≠ "optimize_images" ∧ k ≠ "full_fonts" ∧ k ≠ "hinting" ∧ k ≠ "jpeg_quality" ∧
    k ≠ "dpi" ∧ k ≠ "timeout" ∧ k ≠ "verbose" ∧ k ≠ "debug" ∧ k ≠ "quiet" := by
  simpa [safeOptions, safeOptionNames] using h

theorem safe_cases (k : String) (h : safeOptions k = true) :
    k = "encoding" ∨ k = "media_type" ∨ k = "base_url" ∨ k = "pdf_identifier" ∨
    k = "pdf_variant" ∨ k = "pdf_version" ∨ k = "pdf_forms" ∨ k = "uncompressed_pdf" ∨
    k = "custom_metadata" ∨ k = "presentational_hints" ∨ k = "srgb" ∨
    k = "optimize_images" ∨ k = "full_fonts" ∨ k = "hinting" ∨ k = "jpeg_quality" ∨
    k = "dpi" ∨ k = "timeout" ∨ k = "verbose" ∨ k = "debug" ∨ k = "quiet" := by
  simpa [safeOptions, safeOptionNames] using h

theorem validateStep_of_not_safe (r : WeasyPrintOptions) (k : String) (v : Value)
    (h : safeOptions k = false) : validateStep r k v = r := by
  unfold validateStep
  rw [if_pos (by simp [h])]

theorem stepFields_of_not_safe (r : WeasyPrintOptions) (k : String) (v : Value)
    (h : safeOptions k = false) : stepFields r k v = r := by
  obtain ⟨h1, h2, h3, h4, h5, h6, h7, h8, h9, h10, h11, h12, h13, h14, h15, h16, h17,
    h18, h19, h20⟩ := not_safe_ne k h
  unfold stepFields
  rw [if_neg h1, if_neg h2, if_neg h3, if_neg h4, if_neg h5, if_neg h6, if_neg h7,
    if_neg h8, if_neg h9, if_neg h10, if_neg h11, if_neg h12, if_neg h13, if_neg h14,
    if_neg h15, if_neg h16, if_neg h17, if_neg h18, if_neg h19, if_neg h20]

theorem validateStep_variant (r : WeasyPrintOptions) (v : Value) :
    validateStep r "pdf_variant" v = stepFields r "pdf_variant" v := by
  cases v with
  | str s =>
    have h : validateStep r "pdf_variant" (.str s)
        = if isValidPDFVariant s then { r with PDFVariant := s } else r := rfl
    have h' : stepFields r "pdf_variant" (.str s)
        = { r with PDFVariant := if isValidPDFVariant s then s else r.PDFVariant } := rfl
    rw [h, h']
    by_cases hv : isValidPDFVariant s = true
    · rw [if_pos hv, if_pos hv]
    · rw [if_neg hv, if_neg hv]
  | _ => rfl

theorem validateStep_jpeg_quality (r : WeasyPrintOptions) (v : Value) :
    validateStep r "jpeg_quality" v = stepFields r "jpeg_quality" v := by
  have h : validateStep r "jpeg_quality" v
      = if parseIntValue v 0 95 > 0 then { r with JPEGQuality := parseIntValue v 0 95 }
        else r := rfl
  have h' : stepFields r "jpeg_quality" v
      = { r with JPEGQuality := intUpdate 0 95 v r.JPEGQuality } := rfl
  rw [h, h']
  unfold intUpdate
  by_cases hv : parseIntValue v 0 95 > 0
  · rw [if_pos hv, if_pos hv]
  · rw [if_neg hv, if_neg hv]

theorem validateStep_dpi (r : WeasyPrintOptions) (v : Value) :
    validateStep r "dpi" v = stepFields r "dpi" v := by
  have h : validateStep r "dpi" v
      = if parseIntValue v 50 600 > 0 then { r with DPI := parseIntValue v 50 600 }
        else r := rfl
  have h' : stepFields r "dpi" v = { r with DPI := intUpdate 50 600 v r.DPI } := rfl
  rw [h, h']
  unfold intUpdate
  by_cases hv : parseIntValue v 50 600 > 0
  · rw [if_pos hv, if_pos hv]
  · rw [if_neg hv, if_neg hv]

theorem validateStep_timeout (r : WeasyPrintOptions) (v : Value) :
    validateStep r "timeout" v = stepFields r "timeout" v := by
  have h : validateStep r "timeout" v
      = if parseIntValue v 1 300 > 0 then { r with Timeout := parseIntValue v 1 300 }
        else r := rfl
  have h' : stepFields r "timeout" v = { r with Timeout := intUpdate 1 300 v r.Timeout } := rfl
  rw [h, h']
  unfold intUpdate
  by_cases hv : parseIntValue v 1 300 > 0
  · rw [if_pos hv, if_pos hv]
  · rw [if_neg hv, if_neg hv]

/-- One iteration of the loop changes at most the field that belongs to the
key, and changes it as `stepFields` says. -/
theorem validateStep_eq_stepFields (r : WeasyPrintOptions) (k : String) (v : Value) :
    validateStep r k v = stepFields r k v := by
  cases hs : safeOptions k with
  | false => rw [validateStep_of_not_safe r k v hs, stepFields_of_not_safe r k v hs]
  | true =>
    rcases safe_cases k hs with h | h | h | h | h | h | h | h | h | h | h | h | h | h | h |
      h | h | h | h | h <;> subst h
    · rfl
    · rfl
    · rfl
    · rfl
    · exact validateStep_variant r v
    · rfl
    · rfl
    · rfl
    · rfl
    · rfl
    · rfl
    · rfl
    · rfl
    · rfl
    · exact validateStep_jpeg_quality r v
    · exact validateStep_dpi r v
    · exact validateStep_timeout r v
    · rfl
    · rfl
    · rfl

/-! ## The whole loop -/

theorem onKey_cons {T : Type} (κ : String) (u : Value → T → T) (d : T) (k : String)
    (v : Value) (rest : RawOptions) (h : k ∉ keys rest) :
    onKey rest κ u (if k = κ then u v d else d) = onKey ((k, v) :: rest) κ u d := by
  by_cases hk : k = κ
  · subst hk
    have h1 : lookup k rest = none := lookup_eq_none_of_not_mem k rest h
    have h2 : lookup k ((k, v) :: rest) = some v := by simp [lookup]
    rw [if_pos rfl]
    simp only [onKey, h1, h2]
  · have h2 : lookup κ ((k, v) :: rest) = lookup κ rest := by simp [lookup, hk]
    rw [if_neg hk]
    simp only [onKey, h2]

theorem foldl_eq_overlay (raw : RawOptions) (hnd : (keys raw).Nodup) (r : WeasyPrintOptions) :
    raw.foldl (fun result entry => validateStep result entry.1 entry.2) r = overlay raw r := by
  induction raw generalizing r with
  | nil => rfl
  | cons e rest ih =>
    obtain ⟨k, v⟩ := e
    have hnd' : k ∉ keys rest ∧ (keys rest).Nodup := by
      simpa [keys] using hnd
    rw [List.foldl_cons, ih hnd'.2, validateStep_eq_stepFields]
    apply WeasyPrintOptions.ext
    case CacheFolder => rfl
    all_goals exact onKey_cons _ _ _ k v rest hnd'.1

/-- On a map (pairwise distinct keys) the validator reads every recognised key
once, starting from the defaults. -/
theorem validateOptions_eq_overlay (raw : RawOptions) (hnd : (keys raw).Nodup) :
    validateOptions raw = overlay raw getDefaultOptions :=
  foldl_eq_overlay raw hnd getDefaultOptions

theorem foldl_remove_of_not_safe (k : String) (hk : safeOptions k = false) (raw : RawOptions)
    (r : WeasyPrintOptions) :
    raw.foldl (fun result entry => validateStep result entry.1 entry.2) r
      = (remove k raw).foldl (fun result entry => validateStep result entry.1 entry.2) r := by
  induction raw generalizing r with
  | nil => rfl
  | cons e rest ih =>
    obtain ⟨k₀, v₀⟩ := e
    by_cases h₀ : k₀ = k
    · subst h₀
      have hrm : remove k₀ ((k₀, v₀) :: rest) = remove k₀ rest := by
        simp [remove]
      rw [hrm, List.foldl_cons, validateStep_of_not_safe r k₀ v₀ hk]
      exact ih r
    · have hrm : remove k ((k₀, v₀) :: rest) = (k₀, v₀) :: remove k rest := by
        simp [remove, h₀]
      rw [hrm, List.foldl_cons, List.foldl_cons]
      exact ih _

/-! ## Claims -/

/-- C1: for every raw options map and every key that is not one of the
recognised option names, validating the map gives the same record, field for
field, as validating the map with that key removed, whatever value the key
carries. -/
theorem validateOptions_remove_unrecognised (raw : RawOptions) (k : String)
    (hk : safeOptions k = false) :
    validateOptions raw = validateOptions (remove k raw) :=
  foldl_remove_of_not_safe k hk raw getDefaultOptions

theorem validateOptions_remove_unrecognised_witness :
    safeOptions "--debug" = false ∧
    validateOptions [("--debug", .bool true), ("dpi", .int 100), ("cache_folder", .str "/x")]
      = validateOptions
          (remove "--debug"
            [("--debug", .bool true), ("dpi", .int 100), ("cache_folder", .str "/x")]) :=
  ⟨by decide, validateOptions_remove_unrecognised _ "--debug" (by decide)⟩

/-! ## Decimal rendering -/

theorem digitChar_spec : ∀ d, d < 10 →
    isDigit (Char.ofNat ('0'.toNat + d)) = true ∧ digitVal (Char.ofNat ('0'.toNat + d)) = d := by
  decide

theorem digitsValue_append_singleton (pre : List Char) (c : Char) :
    digitsValue (pre ++ [c]) = digitsValue pre * 10 + digitVal c := by
  simp [digitsValue, List.foldl_append]

theorem decimalDigits_spec (fuel : Nat) : ∀ (n : Nat) (acc : List Char), n < fuel →
    ∃ pre, decimalDigits fuel n acc = pre ++ acc ∧ pre ≠ [] ∧
      (∀ c ∈ pre, isDigit c = true) ∧ digitsValue pre = n := by
  induction fuel with
  | zero => intro n acc h; omega
  | succ fuel ih =>
    intro n acc h
    have hd := digitChar_spec (n % 10) (Nat.mod_lt n (by decide))
    by_cases h0 : n / 10 = 0
    · refine ⟨[Char.ofNat ('0'.toNat + n % 10)], ?_, by simp, ?_, ?_⟩
      · simp only [decimalDigits, if_pos h0]; rfl
      · intro c hc
        rw [List.mem_singleton] at hc
        rw [hc]; exact hd.1
      · have : digitsValue [Char.ofNat ('0'.toNat + n % 10)]
            = digitVal (Char.ofNat ('0'.toNat + n % 10)) := by
          simp [digitsValue]
        rw [this, hd.2]
        omega
    · obtain ⟨pre, hpre, -, hdig, hval⟩ :=
        ih (n / 10) (Char.ofNat ('0'.toNat + n % 10) :: acc) (by omega)
      refine ⟨pre ++ [Char.ofNat ('0'.toNat + n % 10)], ?_, by simp, ?_, ?_⟩
      · simp only [decimalDigits, if_neg h0]
        rw [hpre]; simp
      · intro c hc
        rcases List.mem_append.mp hc with hc | hc
        · exact hdig c hc
        · rw [List.mem_singleton] at hc
          rw [hc]; exact hd.1
      · rw [digitsValue_append_singleton, hval, hd.2]
        omega

theorem splitSign_digits (pre : List Char) (hne : pre ≠ [])
    (hdig : ∀ c ∈ pre, isDigit c = true) : splitSign pre = (false, pre) := by
  cases pre with
  | nil => exact absurd rfl hne
  | cons c rest =>
    have hc : isDigit c = true := hdig c (List.mem_cons_self c rest)
    have h1 : c ≠ '-' := by
      intro h; rw [h] at hc; exact absurd hc (by decide)
    have h2 : c ≠ '+' := by
      intro h; rw [h] at hc; exact absurd hc (by decide)
    simp only [splitSign, if_neg h1, if_neg h2]

theorem parseDecimal_Itoa (n : Int) : parseDecimal (Itoa n) = some n := by
  obtain ⟨pre, hpre, hne, hdig, hval⟩ :=
    decimalDigits_spec (n.natAbs + 1) n.natAbs [] (Nat.lt_succ_self _)
  rw [List.append_nil] at hpre
  have hall : pre.all isDigit = true := List.all_eq_true.mpr hdig
  have hemp : pre.isEmpty = false := by
    cases pre with
    | nil => exact absurd rfl hne
    | cons c rest => rfl
  by_cases hn : n < 0
  · have hI : Itoa n = "-" ++ String.mk pre := by
      simp only [Itoa, hpre, if_pos hn]
    have hl : (Itoa n).toList = '-' :: pre := by rw [hI]; rfl
    have habs : ((n.natAbs : Nat) : Int) = -n := by omega
    simp only [parseDecimal, hl, splitSign, if_pos, hemp, hall, hval, habs]
    simp
  · have hI : Itoa n = String.mk pre := by
      simp only [Itoa, hpre, if_neg hn]
    have hl : (Itoa n).toList = pre := by rw [hI]; rfl
    have habs : ((n.natAbs : Nat) : Int) = n := by omega
    simp only [parseDecimal, hl, splitSign_digits pre hne hdig, hemp, hall, hval, habs]
    simp

/-! ## The argument builder -/

theorem ite_append_eq (c : Prop) [Decidable c] (args g : List String) :
    (if c then args ++ g else args) = args ++ (if c then g else []) := by
  by_cases h : c
  · rw [if_pos h, if_pos h]
  · rw [if_neg h, if_neg h, List.append_nil]

/-- The builder returns the concatenation of the per-field groups. -/
theorem buildWeasyPrintArgs_eq_groupedArgs (o : WeasyPrintOptions) :
    buildWeasyPrintArgs (some o) = groupedArgs o := by
  simp only [buildWeasyPrintArgs, ite_append_eq]
  simp only [groupedArgs, groupsBeforeCache, groupsAfterCache, strGroup, mediaTypeGroup,
    boolGroup, intGroup, List.nil_append, List.append_assoc]

/-- C7: for every non-nil record the builder returns exactly the concatenation,
in the fixed field order, of the groups for encoding, media_type, base_url,
pdf_identifier, pdf_variant, pdf_version, pdf_forms, uncompressed_pdf,
custom_metadata, presentational_hints, srgb, optimize_images, full_fonts,
hinting, jpeg_quality, dpi, cache_folder, timeout, verbose, debug, quiet: a
string field gives its pair when non-empty (media_type only when not "print"),
a boolean field gives its flag when true, an integer field gives its pair when
positive and different from the tool default 80 / 96 / 30, the decimal being a
base-10 numeral that reads back as the value. A JPEGQuality of 80 gives the same
sequence as an unset one, and the raw value "80" is parsed to 80 and emits
nothing. -/
theorem buildWeasyPrintArgs_fixed_order :
    (∀ o : WeasyPrintOptions,
      buildWeasyPrintArgs (some o)
        = strGroup "--encoding" o.Encoding ++ (mediaTypeGroup o.MediaType ++
          (strGroup "--base-url" o.BaseURL ++ (strGroup "--pdf-identifier" o.PDFIdentifier ++
          (strGroup "--pdf-variant" o.PDFVariant ++ (strGroup "--pdf-version" o.PDFVersion ++
          (boolGroup "--pdf-forms" o.PDFForms ++
          (boolGroup "--uncompressed-pdf" o.UncompressedPDF ++
          (boolGroup "--custom-metadata" o.CustomMetadata ++
          (boolGroup "--presentational-hints" o.PresentationalHints ++
          (boolGroup "--srgb" o.SRGB ++ (boolGroup "--optimize-images" o.OptimizeImages ++
          (boolGroup "--full-fonts" o.FullFonts ++ (boolGroup "--hinting" o.Hinting ++
          (intGroup "--jpeg-quality" 80 o.JPEGQuality ++ (intGroup "--dpi" 96 o.DPI ++
          (strGroup "--cache-folder" o.CacheFolder ++ (intGroup "--timeout" 30 o.Timeout ++
          (boolGroup "--verbose" o.Verbose ++ (boolGroup "--debug" o.Debug ++
          boolGroup "--quiet" o.Quiet)))))))))))))))))))) ∧
    (∀ n : Int, parseDecimal (Itoa n) = some n) ∧
    (∀ o : WeasyPrintOptions,
      buildWeasyPrintArgs (some { o with JPEGQuality := 80 })
        = buildWeasyPrintArgs (some { o with JPEGQuality := 0 })) ∧
    (validateOptions [("jpeg_quality", .str "80")]).JPEGQuality = 80 ∧
    buildWeasyPrintArgs (some (validateOptions [("jpeg_quality", .str "80")])) = [] ∧
    buildWeasyPrintArgs (some (validateOptions [("jpeg_quality", .str "81")]))
      = ["--jpeg-quality", "81"] := by
  refine ⟨?_, parseDecimal_Itoa, ?_, by decide, by decide, by decide⟩
  · intro o
    rw [buildWeasyPrintArgs_eq_groupedArgs]
    simp only [groupedArgs, groupsBeforeCache, groupsAfterCache, List.append_assoc]
  · intro o
    rw [buildWeasyPrintArgs_eq_groupedArgs, buildWeasyPrintArgs_eq_groupedArgs]
    have h80 : intGroup "--jpeg-quality" 80 80 = [] := by decide
    have h0 : intGroup "--jpeg-quality" 80 0 = [] := by decide
    simp only [groupedArgs, groupsBeforeCache, groupsAfterCache, h80, h0]

/-- C8: the default record has media_type "print" and every other field at its
zero value; validating the empty map returns exactly this record; the builder
returns the empty sequence on this record and on a nil pointer. -/
theorem default_options_build_nothing :
    getDefaultOptions =
      { Encoding := "", MediaType := "print", BaseURL := "", PDFIdentifier := "",
        PDFVariant := "", PDFVersion := "", PDFForms := false, UncompressedPDF := false,
        CustomMetadata := false, PresentationalHints := false, SRGB := false,
        OptimizeImages := false, FullFonts := false, Hinting := false, JPEGQuality := 0,
        DPI := 0, CacheFolder := "", Timeout := 0, Verbose := false, Debug := false,
        Quiet := false } ∧
    validateOptions [] = getDefaultOptions ∧
    buildWeasyPrintArgs (some getDefaultOptions) = [] ∧
    buildWeasyPrintArgs none = [] :=
  ⟨rfl, rfl, by decide, rfl⟩

/-! ## Range-checked integers and the variant enumeration -/

theorem isValidPDFVariant_iff (s : String) :
    isValidPDFVariant s = true ↔
      s ∈ ["pdf/a-1b", "pdf/a-2b", "pdf/a-3b", "pdf/a-4b", "pdf/a-2u", "pdf/a-3u",
        "pdf/a-4u", "pdf/ua-1", "debug"] := by
  simp [isValidPDFVariant, validVariants]

theorem checked_eq (lo hi x : Int) :
    (if x < lo ∨ x > hi then (0 : Int) else x) = if lo ≤ x ∧ x ≤ hi then x else 0 := by
  by_cases h : lo ≤ x ∧ x ≤ hi
  · rw [if_pos h, if_neg (by omega)]
  · rw [if_neg h, if_pos (by omega)]

theorem parseIntValue_eq_specIntField (lo hi : Int) (hlo : 0 ≤ lo) (hhi : hi ≤ 600)
    (v : Value) : parseIntValue v lo hi = specIntField lo hi v := by
  have hmin : minInt64 = -9223372036854775808 := by decide
  have hmax : maxInt64 = 9223372036854775807 := by decide
  cases v with
  | int i => simp only [parseIntValue, specIntField, specInt, checked_eq]
  | float64 f =>
    cases f with
    | finite neg mant exp =>
      simp only [parseIntValue, specIntField, specInt, checked_eq, float64ToInt, hmin, hmax]
      split_ifs <;> omega
    | inf neg =>
      simp only [parseIntValue, specIntField, specInt, checked_eq, float64ToInt, hmin]
      rw [if_neg (by omega)]
    | nan =>
      simp only [parseIntValue, specIntField, specInt, checked_eq, float64ToInt, hmin]
      rw [if_neg (by omega)]
  | str s =>
    simp only [parseIntValue, specIntField, specInt, checked_eq, Atoi, hmin, hmax]
    cases parseDecimal s with
    | none => rfl
    | some n =>
      by_cases hr : (-9223372036854775808 : Int) ≤ n ∧ n ≤ 9223372036854775807
      · simp only [if_pos hr]
      · simp only [if_neg hr]
        rw [if_neg (by omega)]
  | null => rfl
  | bool b => rfl
  | other => rfl

theorem specIntField_range (lo hi : Int) (v : Value) :
    specIntField lo hi v = 0 ∨ (lo ≤ specIntField lo hi v ∧ specIntField lo hi v ≤ hi) := by
  unfold specIntField
  cases specInt v with
  | none => exact Or.inl rfl
  | some n =>
    simp only
    by_cases h : lo ≤ n ∧ n ≤ hi
    · rw [if_pos h]; exact Or.inr h
    · rw [if_neg h]; exact Or.inl rfl

theorem intUpdate_eq (lo hi : Int) (hlo : 0 ≤ lo) (hhi : hi ≤ 600) (v : Value) (old : Int) :
    intUpdate lo hi v old = if specIntField lo hi v > 0 then specIntField lo hi v else old := by
  unfold intUpdate
  rw [parseIntValue_eq_specIntField lo hi hlo hhi v]

theorem intUpdate_zero (lo hi : Int) (hlo : 0 ≤ lo) (hhi : hi ≤ 600) (v : Value) :
    intUpdate lo hi v 0 = specIntField lo hi v := by
  rw [intUpdate_eq lo hi hlo hhi]
  rcases specIntField_range lo hi v with h | h
  · rw [h]; rfl
  · by_cases hp : specIntField lo hi v > 0
    · rw [if_pos hp]
    · rw [if_neg hp]; omega

theorem intUpdate_range (lo hi : Int) (hlo : 0 ≤ lo) (hhi : hi ≤ 600) (v : Value) (old : Int)
    (h : old = 0 ∨ (lo ≤ old ∧ old ≤ hi)) :
    intUpdate lo hi v old = 0 ∨ (lo ≤ intUpdate lo hi v old ∧ intUpdate lo hi v old ≤ hi) := by
  rw [intUpdate_eq lo hi hlo hhi]
  by_cases hp : specIntField lo hi v > 0
  · rw [if_pos hp]; exact specIntField_range lo hi v
  · rw [if_neg hp]; exact h

theorem variantUpdate_valid (v : Value) (old : String)
    (h : old = "" ∨ old ∈ ["pdf/a-1b", "pdf/a-2b", "pdf/a-3b", "pdf/a-4b", "pdf/a-2u",
      "pdf/a-3u", "pdf/a-4u", "pdf/ua-1", "debug"]) :
    variantUpdate v old = "" ∨
      variantUpdate v old ∈ ["pdf/a-1b", "pdf/a-2b", "pdf/a-3b", "pdf/a-4b", "pdf/a-2u",
        "pdf/a-3u", "pdf/a-4u", "pdf/ua-1", "debug"] := by
  cases v with
  | str s =>
    simp only [variantUpdate]
    by_cases hv : isValidPDFVariant s = true
    · rw [if_pos hv]; exact Or.inr ((isValidPDFVariant_iff s).mp hv)
    · rw [if_neg hv]; exact h
  | _ => exact h

theorem ite_preserves {T : Type} (P : T → Prop) (c : Prop) [Decidable c] (a b : T)
    (ha : P a) (hb : P b) : P (if c then a else b) := by
  by_cases h : c
  · rw [if_pos h]; exact ha
  · rw [if_neg h]; exact hb

theorem stepFields_invariant (r : WeasyPrintOptions) (k : String) (v : Value)
    (h : RenderInvariant r) : RenderInvariant (stepFields r k v) := by
  obtain ⟨h1, h2, h3, h4, h5⟩ := h
  have q := intUpdate_range 0 95 (by decide) (by decide) v _ h2
  have d := intUpdate_range 50 600 (by decide) (by decide) v _ h3
  have t := intUpdate_range 1 300 (by decide) (by decide) v _ h4
  refine ⟨?_, ?_, ?_, ?_, h5⟩
  · exact ite_preserves (fun x : String => x = "" ∨ x ∈ ["pdf/a-1b", "pdf/a-2b", "pdf/a-3b",
      "pdf/a-4b", "pdf/a-2u", "pdf/a-3u", "pdf/a-4u", "pdf/ua-1", "debug"]) _ _ _
      (variantUpdate_valid v _ h1) h1
  · exact ite_preserves (fun x : Int => x = 0 ∨ (0 ≤ x ∧ x ≤ 95)) _ _ _
      q h2
  · exact ite_preserves (fun x : Int => x = 0 ∨ (50 ≤ x ∧ x ≤ 600)) _ _ _
      d h3
  · exact ite_preserves (fun x : Int => x = 0 ∨ (1 ≤ x ∧ x ≤ 300)) _ _ _
      t h4

theorem foldl_invariant (raw : RawOptions) (r : WeasyPrintOptions) (h : RenderInvariant r) :
    RenderInvariant (raw.foldl (fun result entry => validateStep result entry.1 entry.2) r) := by
  induction raw generalizing r with
  | nil => exact h
  | cons e rest ih =>
    rw [List.foldl_cons, validateStep_eq_stepFields]
    exact ih _ (stepFields_invariant r e.1 e.2 h)

/-- C3: for the integer keys jpeg_quality [0,95], dpi [50,600] and timeout
[1,300] and every raw value given for the key, the field equals n when n is
defined and lies in the range, and 0 otherwise, where n is the value itself
(integer-typed), the value truncated toward zero (floating-point-typed) or the
base-10 parse (string-typed); an absent key leaves 0. The boundary values 50
and 600, 1 and 300, and 95 are accepted, and dpi 700 leaves the field at 0. -/
theorem integer_fields_range_checked (raw : RawOptions) (hnd : (keys raw).Nodup) :
    ((validateOptions raw).JPEGQuality =
      match lookup "jpeg_quality" raw with
      | some v => specIntField 0 95 v
      | none => 0) ∧
    ((validateOptions raw).DPI =
      match lookup "dpi" raw with
      | some v => specIntField 50 600 v
      | none => 0) ∧
    ((validateOptions raw).Timeout =
      match lookup "timeout" raw with
      | some v => specIntField 1 300 v
      | none => 0) ∧
    (validateOptions [("dpi", .int 50)]).DPI = 50 ∧
    (validateOptions [("dpi", .int 600)]).DPI = 600 ∧
    (validateOptions [("dpi", .str "600")]).DPI = 600 ∧
    (validateOptions [("dpi", .float64 (.finite false 1201 (-1)))]).DPI = 600 ∧
    (validateOptions [("timeout", .int 1)]).Timeout = 1 ∧
    (validateOptions [("timeout", .int 300)]).Timeout = 300 ∧
    (validateOptions [("jpeg_quality", .int 95)]).JPEGQuality = 95 ∧
    (validateOptions [("dpi", .int 49)]).DPI = 0 ∧
    (validateOptions [("dpi", .int 601)]).DPI = 0 ∧
    (validateOptions [("timeout", .int 301)]).Timeout = 0 ∧
    (validateOptions [("jpeg_quality", .int 96)]).JPEGQuality = 0 ∧
    (validateOptions [("dpi", .str "abc")]).DPI = 0 ∧
    (validateOptions [("dpi", .bool true)]).DPI = 0 ∧
    (validateOptions [("dpi", .int 700)]).DPI = 0 := by
  refine ⟨?_, ?_, ?_, by decide, by decide, by decide, by decide, by decide, by decide,
    by decide, by decide, by decide, by decide, by decide, by decide, by decide, by decide⟩
  · rw [validateOptions_eq_overlay raw hnd]
    show onKey raw "jpeg_quality" (intUpdate 0 95) 0 = _
    unfold onKey
    cases lookup "jpeg_quality" raw with
    | none => rfl
    | some v => exact intUpdate_zero 0 95 (by decide) (by decide) v
  · rw [validateOptions_eq_overlay raw hnd]
    show onKey raw "dpi" (intUpdate 50 600) 0 = _
    unfold onKey
    cases lookup "dpi" raw with
    | none => rfl
    | some v => exact intUpdate_zero 50 600 (by decide) (by decide) v
  · rw [validateOptions_eq_overlay raw hnd]
    show onKey raw "timeout" (intUpdate 1 300) 0 = _
    unfold onKey
    cases lookup "timeout" raw with
    | none => rfl
    | some v => exact intUpdate_zero 1 300 (by decide) (by decide) v

theorem integer_fields_range_checked_witness :
    (keys [("dpi", Value.str "+0600"), ("timeout", Value.float64 (.finite true 3 (-1))),
      ("debug", Value.bool true)]).Nodup ∧
    (validateOptions [("dpi", Value.str "+0600"),
      ("timeout", Value.float64 (.finite true 3 (-1))), ("debug", Value.bool true)]).DPI =
      (match lookup "dpi" [("dpi", Value.str "+0600"),
        ("timeout", Value.float64 (.finite true 3 (-1))), ("debug", Value.bool true)] with
      | some v => specIntField 50 600 v
      | none => 0) :=
  ⟨by decide, (integer_fields_range_checked _ (by decide)).2.1⟩

/-- C4: for every raw options map the field PDFVariant equals the raw
pdf_variant value when that value is a string equal, case-sensitively, to one
of the nine enumerated variants, and is the empty string in every other case. -/
theorem pdf_variant_enumerated (raw : RawOptions) (hnd : (keys raw).Nodup) :
    ((validateOptions raw).PDFVariant =
      match lookup "pdf_variant" raw with
      | some (.str s) =>
        if s ∈ ["pdf/a-1b", "pdf/a-2b", "pdf/a-3b", "pdf/a-4b", "pdf/a-2u", "pdf/a-3u",
          "pdf/a-4u", "pdf/ua-1", "debug"] then s else ""
      | _ => "") ∧
    (validateOptions [("pdf_variant", .str "pdf/ua-1")]).PDFVariant = "pdf/ua-1" ∧
    (validateOptions [("pdf_variant", .str "PDF/UA-1")]).PDFVariant = "" ∧
    (validateOptions [("pdf_variant", .str "pdf/a-1a")]).PDFVariant = "" := by
  refine ⟨?_, by decide, by decide, by decide⟩
  rw [validateOptions_eq_overlay raw hnd]
  show onKey raw "pdf_variant" variantUpdate "" = _
  unfold onKey
  cases lookup "pdf_variant" raw with
  | none => rfl
  | some v =>
    cases v with
    | str s =>
      simp only [variantUpdate]
      by_cases hv : isValidPDFVariant s = true
      · rw [if_pos hv, if_pos ((isValidPDFVariant_iff s).mp hv)]
      · rw [if_neg hv, if_neg (fun h => hv ((isValidPDFVariant_iff s).mpr h))]
    | _ => rfl

theorem pdf_variant_enumerated_witness :
    (keys [("pdf_variant", Value.str "pdf/a-3u"), ("encoding", Value.str "utf-8")]).Nodup ∧
    (validateOptions
      [("pdf_variant", Value.str "pdf/a-3u"), ("encoding", Value.str "utf-8")]).PDFVariant =
      (match lookup "pdf_variant"
        [("pdf_variant", Value.str "pdf/a-3u"), ("encoding", Value.str "utf-8")] with
      | some (.str s) =>
        if s ∈ ["pdf/a-1b", "pdf/a-2b", "pdf/a-3b", "pdf/a-4b", "pdf/a-2u", "pdf/a-3u",
          "pdf/a-4u", "pdf/ua-1", "debug"] then s else ""
      | _ => "") :=
  ⟨by decide, (pdf_variant_enumerated _ (by decide)).1⟩

/-- C5: every record returned by the validator satisfies the invariant:
PDFVariant is empty or one of the nine variants, JPEGQuality is 0 or in [0,95],
DPI is 0 or in [50,600], Timeout is 0 or in [1,300], and CacheFolder is empty;
so the builder emits no cache-folder group for it. -/
theorem validateOptions_invariant (raw : RawOptions) :
    RenderInvariant (validateOptions raw) ∧
    (validateOptions raw).CacheFolder = "" ∧
    buildWeasyPrintArgs (some (validateOptions raw))
      = groupsBeforeCache (validateOptions raw) ++ groupsAfterCache (validateOptions raw) := by
  have hinv : RenderInvariant (validateOptions raw) :=
    foldl_invariant raw getDefaultOptions (by decide)
  refine ⟨hinv, hinv.2.2.2.2, ?_⟩
  rw [buildWeasyPrintArgs_eq_groupedArgs, groupedArgs, hinv.2.2.2.2]
  rfl

/-- C6: the validated record and the built argument sequence depend on the
contents of the raw map only: any two orders of visiting the entries of the
same map give the same record and the same sequence. -/
theorem validate_build_order_independent (raw₁ raw₂ : RawOptions)
    (hnd : (keys raw₁).Nodup) (hp : raw₁.Perm raw₂) :
    validateOptions raw₁ = validateOptions raw₂ ∧
    buildWeasyPrintArgs (some (validateOptions raw₁))
      = buildWeasyPrintArgs (some (validateOptions raw₂)) := by
  have hnd₂ : (keys raw₂).Nodup := (hp.map Prod.fst).nodup_iff.mp hnd
  have hl : ∀ k, lookup k raw₁ = lookup k raw₂ := fun k => lookup_perm k hp hnd
  have heq : validateOptions raw₁ = validateOptions raw₂ := by
    rw [validateOptions_eq_overlay raw₁ hnd, validateOptions_eq_overlay raw₂ hnd₂]
    simp only [overlay, onKey, hl]
  exact ⟨heq, by rw [heq]⟩

theorem validate_build_order_independent_witness :
    (keys [("dpi", Value.int 300), ("debug", Value.bool true),
      ("encoding", Value.str "utf-8")]).Nodup ∧
    List.Perm [("dpi", Value.int 300), ("debug", Value.bool true),
      ("encoding", Value.str "utf-8")]
      [("encoding", Value.str "utf-8"), ("dpi", Value.int 300), ("debug", Value.bool true)] ∧
    buildWeasyPrintArgs (some (validateOptions [("dpi", Value.int 300),
      ("debug", Value.bool true), ("encoding", Value.str "utf-8")]))
      = buildWeasyPrintArgs (some (validateOptions [("encoding", Value.str "utf-8"),
          ("dpi", Value.int 300), ("debug", Value.bool true)])) :=
  ⟨by decide, by decide,
    (validate_build_order_independent _ _ (by decide) (by decide)).2⟩

/-! ## Groups of a validated record -/

theorem renderGroups_append (a b : List ArgGroup) :
    renderGroups (a ++ b) = renderGroups a ++ renderGroups b := by
  induction a with
  | nil => rfl
  | cons g gs ih =>
    show g.render ++ renderGroups (gs ++ b) = (g.render ++ renderGroups gs) ++ renderGroups b
    rw [ih, List.append_assoc]

theorem renderGroups_strPair (flag value : String) :
    renderGroups (strPair flag value) = strGroup flag value := by
  unfold strPair strGroup
  by_cases h : value ≠ ""
  · rw [if_pos h, if_pos h]; rfl
  · rw [if_neg h, if_neg h]; rfl

theorem renderGroups_mediaTypePair (value : String) :
    renderGroups (mediaTypePair value) = mediaTypeGroup value := by
  unfold mediaTypePair mediaTypeGroup
  by_cases h : value ≠ "" ∧ value ≠ "print"
  · rw [if_pos h, if_pos h]; rfl
  · rw [if_neg h, if_neg h]; rfl

theorem renderGroups_boolSingle (flag : String) (b : Bool) :
    renderGroups (boolSingle flag b) = boolGroup flag b := by
  cases b <;> rfl

theorem renderGroups_intPair (flag : String) (d n : Int) :
    renderGroups (intPair flag d n) = intGroup flag d n := by
  unfold intPair intGroup
  by_cases h : n > 0 ∧ n ≠ d
  · rw [if_pos h, if_pos h]; rfl
  · rw [if_neg h, if_neg h]; rfl

theorem renderGroups_optionGroups (o : WeasyPrintOptions) :
    renderGroups (optionGroups o) = groupsBeforeCache o ++ groupsAfterCache o := by
  simp only [optionGroups, renderGroups_append, renderGroups_strPair,
    renderGroups_mediaTypePair, renderGroups_boolSingle, renderGroups_intPair,
    groupsBeforeCache, groupsAfterCache, List.append_assoc]

theorem onKey_asString (raw : RawOptions) (k d : String) :
    onKey raw k asString d =
      match lookup k raw with
      | some (.str s) => s
      | _ => d := by
  unfold onKey
  cases lookup k raw with
  | none => rfl
  | some v => cases v <;> rfl

theorem onKey_asBool_iff (raw : RawOptions) (k : String) :
    onKey raw k asBool false = true ↔ lookup k raw = some (.bool true) := by
  unfold onKey
  cases lookup k raw with
  | none => simp
  | some v => cases v <;> simp [asBool]

theorem onKey_asString_origin (raw : RawOptions) (k d : String)
    (hne : onKey raw k asString d ≠ d) :
    lookup k raw = some (.str (onKey raw k asString d)) := by
  unfold onKey at hne ⊢
  cases h : lookup k raw with
  | none => rw [h] at hne; exact absurd rfl hne
  | some v =>
    rw [h] at hne
    cases v with
    | str s => rfl
    | _ => exact absurd rfl hne

theorem onKey_variant_origin (raw : RawOptions) (k d : String)
    (hne : onKey raw k variantUpdate d ≠ d) :
    lookup k raw = some (.str (onKey raw k variantUpdate d)) := by
  unfold onKey at hne ⊢
  cases h : lookup k raw with
  | none => rw [h] at hne; exact absurd rfl hne
  | some v =>
    rw [h] at hne
    cases v with
    | str s =>
      simp only [variantUpdate] at hne ⊢
      by_cases hv : isValidPDFVariant s = true
      · rw [if_pos hv]
      · rw [if_neg hv] at hne; exact absurd rfl hne
    | _ => exact absurd rfl hne

theorem forall_mem_append_of {P : ArgGroup → Prop} {a b : List ArgGroup}
    (ha : ∀ g ∈ a, P g) (hb : ∀ g ∈ b, P g) : ∀ g ∈ a ++ b, P g := by
  intro g hg
  rcases List.mem_append.mp hg with h | h
  · exact ha g h
  · exact hb g h

theorem strPair_allowed (raw : RawOptions) (flag key value : String)
    (hf : flag ∈ valueFlags) (hk : (flag, key) ∈ stringFlagKeys)
    (h : value ≠ "" → lookup key raw = some (.str value)) :
    ∀ g ∈ strPair flag value, groupAllowed raw g := by
  intro g hg
  unfold strPair at hg
  by_cases hv : value ≠ ""
  · rw [if_pos hv, List.mem_singleton] at hg
    subst hg
    exact ⟨hf, Or.inl ⟨key, hk, h hv⟩⟩
  · rw [if_neg hv] at hg
    exact absurd hg (List.not_mem_nil g)

theorem mediaTypePair_allowed (raw : RawOptions) (value : String)
    (h : value ≠ "print" → lookup "media_type" raw = some (.str value)) :
    ∀ g ∈ mediaTypePair value, groupAllowed raw g := by
  intro g hg
  unfold mediaTypePair at hg
  by_cases hv : value ≠ "" ∧ value ≠ "print"
  · rw [if_pos hv, List.mem_singleton] at hg
    subst hg
    exact ⟨by decide, Or.inl ⟨"media_type", by decide, h hv.2⟩⟩
  · rw [if_neg hv] at hg
    exact absurd hg (List.not_mem_nil g)

theorem boolSingle_allowed (raw : RawOptions) (flag key : String) (b : Bool)
    (hf : flag ∈ booleanFlags) (hk : (flag, key) ∈ boolFlagKeys)
    (h : b = true → lookup key raw = some (.bool true)) :
    ∀ g ∈ boolSingle flag b, groupAllowed raw g := by
  intro g hg
  unfold boolSingle at hg
  by_cases hb : b = true
  · rw [if_pos hb, List.mem_singleton] at hg
    subst hg
    exact ⟨hf, key, hk, h hb⟩
  · rw [if_neg hb] at hg
    exact absurd hg (List.not_mem_nil g)

theorem intPair_allowed (raw : RawOptions) (flag : String) (lo hi d n : Int)
    (hf : flag ∈ valueFlags) (hr : (flag, lo, hi) ∈ intFlagRanges)
    (h : n > 0 → lo ≤ n ∧ n ≤ hi) :
    ∀ g ∈ intPair flag d n, groupAllowed raw g := by
  intro g hg
  unfold intPair at hg
  by_cases hn : n > 0 ∧ n ≠ d
  · rw [if_pos hn, List.mem_singleton] at hg
    subst hg
    exact ⟨hf, Or.inr ⟨lo, hi, n, hr, (h hn.1).1, (h hn.1).2, rfl⟩⟩
  · rw [if_neg hn] at hg
    exact absurd hg (List.not_mem_nil g)

theorem optionGroups_overlay_allowed (raw : RawOptions)
    (hinv : RenderInvariant (overlay raw getDefaultOptions)) :
    ∀ g ∈ optionGroups (overlay raw getDefaultOptions), groupAllowed raw g := by
  obtain ⟨-, hq, hd, ht, -⟩ := hinv
  have hstr : ∀ k : String, onKey raw k asString "" ≠ "" →
      lookup k raw = some (.str (onKey raw k asString "")) :=
    fun k => onKey_asString_origin raw k ""
  have hbool : ∀ k : String, onKey raw k asBool false = true →
      lookup k raw = some (.bool true) :=
    fun k => (onKey_asBool_iff raw k).mp
  refine forall_mem_append_of
    (strPair_allowed raw _ "encoding" _ (by decide) (by decide) (hstr "encoding")) ?_
  refine forall_mem_append_of
    (mediaTypePair_allowed raw _ (onKey_asString_origin raw "media_type" "print")) ?_
  refine forall_mem_append_of
    (strPair_allowed raw _ "base_url" _ (by decide) (by decide) (hstr "base_url")) ?_
  refine forall_mem_append_of
    (strPair_allowed raw _ "pdf_identifier" _ (by decide) (by decide)
      (hstr "pdf_identifier")) ?_
  refine forall_mem_append_of
    (strPair_allowed raw _ "pdf_variant" _ (by decide) (by decide)
      (onKey_variant_origin raw "pdf_variant" "")) ?_
  refine forall_mem_append_of
    (strPair_allowed raw _ "pdf_version" _ (by decide) (by decide) (hstr "pdf_version")) ?_
  refine forall_mem_append_of
    (boolSingle_allowed raw _ "pdf_forms" _ (by decide) (by decide) (hbool "pdf_forms")) ?_
  refine forall_mem_append_of
    (boolSingle_allowed raw _ "uncompressed_pdf" _ (by decide) (by decide)
      (hbool "uncompressed_pdf")) ?_
  refine forall_mem_append_of
    (boolSingle_allowed raw _ "custom_metadata" _ (by decide) (by decide)
      (hbool "custom_metadata")) ?_
  refine forall_mem_append_of
    (boolSingle_allowed raw _ "presentational_hints" _ (by decide) (by decide)
      (hbool "presentational_hints")) ?_
  refine forall_mem_append_of
    (boolSingle_allowed raw _ "srgb" _ (by decide) (by decide) (hbool "srgb")) ?_
  refine forall_mem_append_of
    (boolSingle_allowed raw _ "optimize_images" _ (by decide) (by decide)
      (hbool "optimize_images")) ?_
  refine forall_mem_append_of
    (boolSingle_allowed raw _ "full_fonts" _ (by decide) (by decide) (hbool "full_fonts")) ?_
  refine forall_mem_append_of
    (boolSingle_allowed raw _ "hinting" _ (by decide) (by decide) (hbool "hinting")) ?_
  refine forall_mem_append_of
    (intPair_allowed raw _ 1 95 _ _ (by decide) (by decide) (fun h => by omega)) ?_
  refine forall_mem_append_of
    (intPair_allowed raw _ 50 600 _ _ (by decide) (by decide) (fun h => by omega)) ?_
  refine forall_mem_append_of
    (intPair_allowed raw _ 1 300 _ _ (by decide) (by decide) (fun h => by omega)) ?_
  refine forall_mem_append_of
    (boolSingle_allowed raw _ "verbose" _ (by decide) (by decide) (hbool "verbose")) ?_
  refine forall_mem_append_of
    (boolSingle_allowed raw _ "debug" _ (by decide) (by decide) (hbool "debug")) ?_
  exact boolSingle_allowed raw _ "quiet" _ (by decide) (by decide) (hbool "quiet")

theorem safe_not_flag (k : String) (h : safeOptions k = true) :
    k ∉ booleanFlags ∧ k ∉ valueFlags := by
  rcases safe_cases k h with h | h | h | h | h | h | h | h | h | h | h | h | h | h | h |
    h | h | h | h | h <;> subst h <;> decide

theorem groupAllowed_flag (raw : RawOptions) (g : ArgGroup) (h : groupAllowed raw g) :
    g.flag ∈ booleanFlags ∨ g.flag ∈ valueFlags := by
  cases g with
  | single f => exact Or.inl h.1
  | pair f v => exact Or.inr h.1

theorem renderGroups_singleton (gs : List ArgGroup) (x : String)
    (h : renderGroups gs = [x]) : ∃ g ∈ gs, g.flag = x := by
  cases gs with
  | nil => simp [renderGroups] at h
  | cons g rest =>
    cases g with
    | single f =>
      simp only [renderGroups, ArgGroup.render, List.singleton_append, List.cons.injEq] at h
      exact ⟨.single f, List.mem_cons_self _ _, h.1⟩
    | pair f v =>
      simp [renderGroups, ArgGroup.render] at h

/-- C2, as stated, fails, because the strings of the sequence cannot tell where
they come from. With the raw map {"--debug": true, "debug": true} the sequence
is ["--debug"]: the key name "--debug" of the raw map is the flag of every
decomposition into groups. With {"encoding": "--debug", "debug": true} the
sequence is ["--encoding", "--debug", "--debug"]: the client-supplied string
"--debug" is the flag of the second group of every decomposition into
well-formed groups. -/
theorem flag_coincides_with_client_string :
    (keys [("--debug", Value.bool true), ("debug", Value.bool true)]).Nodup ∧
    buildWeasyPrintArgs
        (some (validateOptions [("--debug", Value.bool true), ("debug", Value.bool true)]))
      = ["--debug"] ∧
    "--debug" ∈ keys [("--debug", Value.bool true), ("debug", Value.bool true)] ∧
    (∀ gs, renderGroups gs = ["--debug"] →
      ∃ g ∈ gs, g.flag ∈ keys [("--debug", Value.bool true), ("debug", Value.bool true)]) ∧
    (keys [("encoding", Value.str "--debug"), ("debug", Value.bool true)]).Nodup ∧
    buildWeasyPrintArgs
        (some (validateOptions [("encoding", Value.str "--debug"), ("debug", Value.bool true)]))
      = ["--encoding", "--debug", "--debug"] ∧
    lookup "encoding" [("encoding", Value.str "--debug"), ("debug", Value.bool true)]
      = some (.str "--debug") ∧
    (∀ gs, renderGroups gs = ["--encoding", "--debug", "--debug"] →
      (∀ g ∈ gs, groupWellFormed g) → ∃ g ∈ gs, g.flag = "--debug") := by
  refine ⟨by decide, by decide, by decide, ?_, by decide, by decide, by decide, ?_⟩
  · intro gs h
    obtain ⟨g, hg, hflag⟩ := renderGroups_singleton gs "--debug" h
    exact ⟨g, hg, by rw [hflag]; decide⟩
  · intro gs h hwf
    cases gs with
    | nil => simp [renderGroups] at h
    | cons g rest =>
      cases g with
      | single f =>
        have hf : f ∈ booleanFlags := hwf (.single f) (List.mem_cons_self _ _)
        simp only [renderGroups, ArgGroup.render, List.singleton_append, List.cons.injEq] at h
        rw [h.1] at hf
        exact absurd hf (by decide)
      | pair f v =>
        simp only [renderGroups, ArgGroup.render, List.cons_append, List.nil_append,
          List.cons.injEq] at h
        obtain ⟨g, hg, hflag⟩ := renderGroups_singleton rest "--debug" h.2.2
        exact ⟨g, List.mem_cons_of_mem _ hg, hflag⟩

/-- C2, amended: for every raw options map the sequence built from the
validated record is a concatenation of groups, each a lone flag from the fixed
boolean set or a pair whose flag is from the fixed value-taking set. Every flag
is emitted for a recognised key of the raw map: a lone flag for its boolean key
holding true, the flag of a pair for the key whose string value follows it, or
for an integer key with the decimal rendering of an in-range integer behind it.
A raw key name is the string in a flag position only when that key is itself
spelled as one of the fixed flags; such a key is not recognised, and removing
it leaves the sequence unchanged. A client-supplied string value equals a flag
only by being spelled as one of the fixed flags. A key that is not recognised
never has an effect on the sequence. -/
theorem build_validate_groups (raw : RawOptions) (hnd : (keys raw).Nodup) :
    ∃ gs : List ArgGroup,
      buildWeasyPrintArgs (some (validateOptions raw)) = renderGroups gs ∧
      (∀ g ∈ gs, groupWellFormed g) ∧
      (∀ g ∈ gs, groupAllowed raw g) ∧
      (∀ g ∈ gs, g.flag ∈ booleanFlags ∨ g.flag ∈ valueFlags) ∧
      (∀ k ∈ keys raw, ∀ g ∈ gs, g.flag = k →
        safeOptions k = false ∧ (k ∈ booleanFlags ∨ k ∈ valueFlags) ∧
        buildWeasyPrintArgs (some (validateOptions (remove k raw)))
          = buildWeasyPrintArgs (some (validateOptions raw))) ∧
      (∀ key s, lookup key raw = some (.str s) → ∀ g ∈ gs, g.flag = s →
        s ∈ booleanFlags ∨ s ∈ valueFlags) ∧
      (∀ k, safeOptions k = false →
        buildWeasyPrintArgs (some (validateOptions (remove k raw)))
          = buildWeasyPrintArgs (some (validateOptions raw))) := by
  have hinv : RenderInvariant (validateOptions raw) :=
    foldl_invariant raw getDefaultOptions (by decide)
  have heq : validateOptions raw = overlay raw getDefaultOptions :=
    validateOptions_eq_overlay raw hnd
  have hall : ∀ g ∈ optionGroups (validateOptions raw), groupAllowed raw g := by
    rw [heq] at hinv ⊢
    exact optionGroups_overlay_allowed raw hinv
  have hflags : ∀ g ∈ optionGroups (validateOptions raw),
      g.flag ∈ booleanFlags ∨ g.flag ∈ valueFlags :=
    fun g hg => groupAllowed_flag raw g (hall g hg)
  have hdrop : ∀ k, safeOptions k = false →
      buildWeasyPrintArgs (some (validateOptions (remove k raw)))
        = buildWeasyPrintArgs (some (validateOptions raw)) := by
    intro k hk
    show buildWeasyPrintArgs (some (validateOptions (remove k raw))) = _
    unfold validateOptions
    rw [← foldl_remove_of_not_safe k hk raw getDefaultOptions]
  refine ⟨optionGroups (validateOptions raw), ?_, ?_, hall, hflags, ?_, ?_, hdrop⟩
  · rw [renderGroups_optionGroups, buildWeasyPrintArgs_eq_groupedArgs, groupedArgs,
      hinv.2.2.2.2]
    rfl
  · intro g hg
    have h := hall g hg
    cases g with
    | single f => exact h.1
    | pair f v => exact h.1
  · intro k _ g hg hflag
    have hf := hflags g hg
    rw [hflag] at hf
    have hs : safeOptions k = false := by
      cases hsafe : safeOptions k with
      | false => rfl
      | true =>
        have hk := safe_not_flag k hsafe
        rcases hf with h | h
        · exact absurd h hk.1
        · exact absurd h hk.2
    exact ⟨hs, hf, hdrop k hs⟩
  · intro key s _ g hg hflag
    have hf := hflags g hg
    rw [hflag] at hf
    exact hf

theorem build_validate_groups_witness :
    (keys [("encoding", Value.str "--debug"), ("--cache-folder", Value.str "/tmp"),
      ("quiet", Value.bool true), ("dpi", Value.str "300")]).Nodup ∧
    ∃ gs : List ArgGroup,
      buildWeasyPrintArgs (some (validateOptions
        [("encoding", Value.str "--debug"), ("--cache-folder", Value.str "/tmp"),
          ("quiet", Value.bool true), ("dpi", Value.str "300")])) = renderGroups gs ∧
      (∀ g ∈ gs, groupWellFormed g) ∧
      (∀ g ∈ gs, g.flag ∈ booleanFlags ∨ g.flag ∈ valueFlags) := by
  refine ⟨by decide, ?_⟩
  obtain ⟨gs, h1, h2, _, h4, _⟩ := build_validate_groups
    [("encoding", Value.str "--debug"), ("--cache-folder", Value.str "/tmp"),
      ("quiet", Value.bool true), ("dpi", Value.str "300")] (by decide)
  exact ⟨gs, h1, h2, h4⟩

/-! ## The allow-list -/

theorem step_changes_iff_safe (k : String) :
    (∃ r v, validateStep r k v ≠ r) ↔ safeOptions k = true := by
  constructor
  · rintro ⟨r, v, h⟩
    cases hs : safeOptions k with
    | true => rfl
    | false => exact absurd (validateStep_of_not_safe r k v hs) h
  · intro hs
    have hstr : ∀ k', k' ∈ stringKeys → validateStep zeroOptions k' (.str "x") ≠ zeroOptions := by
      decide
    have hbool : ∀ k', k' ∈ boolKeys → validateStep zeroOptions k' (.bool true) ≠ zeroOptions := by
      decide
    rcases safe_cases k hs with h | h | h | h | h | h | h | h | h | h | h | h | h | h | h |
      h | h | h | h | h <;> subst h
    · exact ⟨zeroOptions, .str "x", hstr _ (by decide)⟩
    · exact ⟨zeroOptions, .str "x", hstr _ (by decide)⟩
    · exact ⟨zeroOptions, .str "x", hstr _ (by decide)⟩
    · exact ⟨zeroOptions, .str "x", hstr _ (by decide)⟩
    · exact ⟨zeroOptions, .str "debug", by decide⟩
    · exact ⟨zeroOptions, .str "x", hstr _ (by decide)⟩
    · exact ⟨zeroOptions, .bool true, hbool _ (by decide)⟩
    · exact ⟨zeroOptions, .bool true, hbool _ (by decide)⟩
    · exact ⟨zeroOptions, .bool true, hbool _ (by decide)⟩
    · exact ⟨zeroOptions, .bool true, hbool _ (by decide)⟩
    · exact ⟨zeroOptions, .bool true, hbool _ (by decide)⟩
    · exact ⟨zeroOptions, .bool true, hbool _ (by decide)⟩
    · exact ⟨zeroOptions, .bool true, hbool _ (by decide)⟩
    · exact ⟨zeroOptions, .bool true, hbool _ (by decide)⟩
    · exact ⟨zeroOptions, .int 60, by decide⟩
    · exact ⟨zeroOptions, .int 60, by decide⟩
    · exact ⟨zeroOptions, .int 60, by decide⟩
    · exact ⟨zeroOptions, .bool true, hbool _ (by decide)⟩
    · exact ⟨zeroOptions, .bool true, hbool _ (by decide)⟩
    · exact ⟨zeroOptions, .bool true, hbool _ (by decide)⟩

theorem safeOptions_iff_mem (k : String) : safeOptions k = true ↔ k ∈ safeOptionNames := by
  simp [safeOptions]

theorem safeOptionNames_nodup : safeOptionNames.Nodup := by decide

/-- C9, as stated, fails: no list of 19 names is the allow-list, because the
validator processes 20 pairwise distinct names. -/
theorem allow_list_not_nineteen :
    ¬ ∃ names : List String, names.length = 19 ∧
        ∀ k, (∃ r v, validateStep r k v ≠ r) ↔ k ∈ names := by
  rintro ⟨names, hlen, hiff⟩
  have hsub : safeOptionNames ⊆ names := by
    intro k hk
    exact (hiff k).mp ((step_changes_iff_safe k).mpr ((safeOptions_iff_mem k).mpr hk))
  have hle : safeOptionNames.length ≤ names.length :=
    (List.subperm_of_subset safeOptionNames_nodup hsub).length_le
  have h20 : safeOptionNames.length = 20 := by decide
  omega

/-- C9, amended: the allow-list of the validator contains exactly 20 pairwise
distinct names; a key is processed (an entry under it can change the record)
if and only if it is one of those 20, and an entry under any other key is
dropped, leaving the record as it was. -/
theorem allow_list_twenty :
    safeOptionNames.length = 20 ∧ safeOptionNames.Nodup ∧
    (∀ k, (∃ r v, validateStep r k v ≠ r) ↔
      k ∈ ["encoding", "media_type", "base_url", "pdf_identifier", "pdf_variant",
        "pdf_version", "pdf_forms", "uncompressed_pdf", "custom_metadata",
        "presentational_hints", "srgb", "optimize_images", "full_fonts", "hinting",
        "jpeg_quality", "dpi", "timeout", "verbose", "debug", "quiet"]) ∧
    (∀ k, k ∉ safeOptionNames → ∀ r v, validateStep r k v = r) := by
  refine ⟨by decide, safeOptionNames_nodup, ?_, ?_⟩
  · intro k
    rw [step_changes_iff_safe, safeOptions_iff_mem]
    rfl
  · intro k hk r v
    apply validateStep_of_not_safe
    cases hs : safeOptions k with
    | false => rfl
    | true => exact absurd ((safeOptions_iff_mem k).mp hs) hk

/-! ## Type mismatches leave the defaults -/

theorem onKey_remove {T : Type} (raw : RawOptions) (k : String) (v : Value) (κ : String)
    (u : Value → T → T) (d : T) (hl : lookup k raw = some v) (h : κ = k → u v d = d) :
    onKey raw κ u d = onKey (remove k raw) κ u d := by
  by_cases hκ : κ = k
  · subst hκ
    unfold onKey
    rw [hl, lookup_remove_self]
    exact h rfl
  · unfold onKey
    rw [lookup_remove_ne k κ raw hκ]

theorem overlay_remove_mismatch (raw : RawOptions) (k : String) (v : Value)
    (hl : lookup k raw = some v) (hm : typeMismatch k v = true) :
    overlay raw getDefaultOptions = overlay (remove k raw) getDefaultOptions := by
  apply WeasyPrintOptions.ext
  case CacheFolder => rfl
  all_goals
    refine onKey_remove raw k v _ _ _ hl (fun hκ => ?_)
    subst hκ
    cases v <;> first | rfl | simp [typeMismatch, stringKeys, boolKeys] at hm

/-- C10: for every raw options map, each of the string keys encoding,
media_type, base_url, pdf_identifier, pdf_version gives its field the raw value
verbatim when that value is a string and leaves the default otherwise (print for
media_type, empty for the others); each of the eleven boolean fields is true if
and only if the raw value is the boolean true, so the string "true" or a number
never sets it; and a value of the wrong type under one of these keys gives the
same record as the map without that key, so no other field is affected. -/
theorem typed_fields_verbatim (raw : RawOptions) (hnd : (keys raw).Nodup) :
    ((validateOptions raw).Encoding =
      match lookup "encoding" raw with
      | some (.str s) => s
      | _ => "") ∧
    ((validateOptions raw).MediaType =
      match lookup "media_type" raw with
      | some (.str s) => s
      | _ => "print") ∧
    ((validateOptions raw).BaseURL =
      match lookup "base_url" raw with
      | some (.str s) => s
      | _ => "") ∧
    ((validateOptions raw).PDFIdentifier =
      match lookup "pdf_identifier" raw with
      | some (.str s) => s
      | _ => "") ∧
    ((validateOptions raw).PDFVersion =
      match lookup "pdf_version" raw with
      | some (.str s) => s
      | _ => "") ∧
    ((validateOptions raw).PDFForms = true ↔ lookup "pdf_forms" raw = some (.bool true)) ∧
    ((validateOptions raw).UncompressedPDF = true ↔
      lookup "uncompressed_pdf" raw = some (.bool true)) ∧
    ((validateOptions raw).CustomMetadata = true ↔
      lookup "custom_metadata" raw = some (.bool true)) ∧
    ((validateOptions raw).PresentationalHints = true ↔
      lookup "presentational_hints" raw = some (.bool true)) ∧
    ((validateOptions raw).SRGB = true ↔ lookup "srgb" raw = some (.bool true)) ∧
    ((validateOptions raw).OptimizeImages = true ↔
      lookup "optimize_images" raw = some (.bool true)) ∧
    ((validateOptions raw).FullFonts = true ↔ lookup "full_fonts" raw = some (.bool true)) ∧
    ((validateOptions raw).Hinting = true ↔ lookup "hinting" raw = some (.bool true)) ∧
    ((validateOptions raw).Verbose = true ↔ lookup "verbose" raw = some (.bool true)) ∧
    ((validateOptions raw).Debug = true ↔ lookup "debug" raw = some (.bool true)) ∧
    ((validateOptions raw).Quiet = true ↔ lookup "quiet" raw = some (.bool true)) ∧
    (validateOptions [("verbose", .str "true")]).Verbose = false ∧
    (validateOptions [("verbose", .int 1)]).Verbose = false ∧
    (validateOptions [("media_type", .bool true)]).MediaType = "print" ∧
    (validateOptions [("encoding", .int 8)]).Encoding = "" ∧
    (∀ k v, lookup k raw = some v → typeMismatch k v = true →
      validateOptions raw = validateOptions (remove k raw)) := by
  have heq : validateOptions raw = overlay raw getDefaultOptions :=
    validateOptions_eq_overlay raw hnd
  refine ⟨?_, ?_, ?_, ?_, ?_, ?_, ?_, ?_, ?_, ?_, ?_, ?_, ?_, ?_, ?_, ?_, by decide,
    by decide, by decide, by decide, ?_⟩
  · rw [heq]; exact onKey_asString raw "encoding" ""
  · rw [heq]; exact onKey_asString raw "media_type" "print"
  · rw [heq]; exact onKey_asString raw "base_url" ""
  · rw [heq]; exact onKey_asString raw "pdf_identifier" ""
  · rw [heq]; exact onKey_asString raw "pdf_version" ""
  · rw [heq]; exact onKey_asBool_iff raw "pdf_forms"
  · rw [heq]; exact onKey_asBool_iff raw "uncompressed_pdf"
  · rw [heq]; exact onKey_asBool_iff raw "custom_metadata"
  · rw [heq]; exact onKey_asBool_iff raw "presentational_hints"
  · rw [heq]; exact onKey_asBool_iff raw "srgb"
  · rw [heq]; exact onKey_asBool_iff raw "optimize_images"
  · rw [heq]; exact onKey_asBool_iff raw "full_fonts"
  · rw [heq]; exact onKey_asBool_iff raw "hinting"
  · rw [heq]; exact onKey_asBool_iff raw "verbose"
  · rw [heq]; exact onKey_asBool_iff raw "debug"
  · rw [heq]; exact onKey_asBool_iff raw "quiet"
  · intro k v hl hm
    rw [heq, validateOptions_eq_overlay _ (nodup_keys_remove k raw hnd)]
    exact overlay_remove_mismatch raw k v hl hm

theorem typed_fields_verbatim_witness :
    (keys [("verbose", Value.str "true"), ("encoding", Value.str "utf-8"),
      ("dpi", Value.int 300)]).Nodup ∧
    ((validateOptions [("verbose", Value.str "true"), ("encoding", Value.str "utf-8"),
      ("dpi", Value.int 300)]).Verbose = true ↔
      lookup "verbose" [("verbose", Value.str "true"), ("encoding", Value.str "utf-8"),
        ("dpi", Value.int 300)] = some (.bool true)) ∧
    validateOptions [("verbose", Value.str "true"), ("encoding", Value.str "utf-8"),
        ("dpi", Value.int 300)]
      = validateOptions (remove "verbose" [("verbose", Value.str "true"),
          ("encoding", Value.str "utf-8"), ("dpi", Value.int 300)]) :=
  ⟨by decide,
    (typed_fields_verbatim _ (by decide)).2.2.2.2.2.2.2.2.2.2.2.2.2.1,
    (typed_fields_verbatim _ (by decide)).2.2.2.2.2.2.2.2.2.2.2.2.2.2.2.2.2.2.2.2
      "verbose" (.str "true") (by decide) (by decide)⟩

/-! ## The two invocation modes -/

theorem foldl_append_pairs (flag : String) (paths : List String) (init : List String) :
    paths.foldl (fun args p => args ++ [flag, p]) init = init ++ pairsFor flag paths := by
  induction paths generalizing init with
  | nil => simp [pairsFor]
  | cons p ps ih =>
    rw [List.foldl_cons, ih]
    simp [pairsFor]

theorem drop_take_last_two (front : List String) (a b : String) :
    (front ++ [a, b]).drop ((front ++ [a, b]).length - 2) = [a, b] ∧
    (front ++ [a, b]).take ((front ++ [a, b]).length - 2) = front := by
  have hlen : (front ++ [a, b]).length - 2 = front.length := by simp
  rw [hlen]
  constructor
  · simp
  · simp

/-- C11: in from-files mode the sequence handed to the renderer is exactly the
option arguments, then one pair [--stylesheet, p] per CSS path in order, then
one pair [--attachment, a] per attachment in order, then the HTML path and "-";
so the last two arguments are always the source and the standard-output
marker, and everything before them is option flags and stylesheet or attachment
pairs. -/
theorem from_files_args (fileInfo : UploadedFileInfo) (run : List String → Option String) :
    generatePDFFromFilesArgs fileInfo
      = buildWeasyPrintArgs fileInfo.Options ++ (pairsFor "--stylesheet" fileInfo.CSSPaths ++
          (pairsFor "--attachment" fileInfo.Attachments ++ [fileInfo.HTMLPath, "-"])) ∧
    generatePDFFromFiles run fileInfo
      = executeWeasyPrint run
          (buildWeasyPrintArgs fileInfo.Options ++ (pairsFor "--stylesheet" fileInfo.CSSPaths ++
            (pairsFor "--attachment" fileInfo.Attachments ++ [fileInfo.HTMLPath, "-"]))) ∧
    (generatePDFFromFilesArgs fileInfo).drop ((generatePDFFromFilesArgs fileInfo).length - 2)
      = [fileInfo.HTMLPath, "-"] ∧
    (generatePDFFromFilesArgs fileInfo).take ((generatePDFFromFilesArgs fileInfo).length - 2)
      = buildWeasyPrintArgs fileInfo.Options ++ (pairsFor "--stylesheet" fileInfo.CSSPaths ++
          pairsFor "--attachment" fileInfo.Attachments) ∧
    generatePDFFromFilesArgs
        { HTMLPath := "/t/in.html", CSSPaths := ["/t/a.css", "/t/b.css"],
          Attachments := ["/t/x.png"], Options := some (validateOptions [("dpi", .int 300)]),
          Filename := "document.pdf", ShareService := NoShare }
      = ["--dpi", "300", "--stylesheet", "/t/a.css", "--stylesheet", "/t/b.css",
         "--attachment", "/t/x.png", "/t/in.html", "-"] := by
  have h : generatePDFFromFilesArgs fileInfo
      = buildWeasyPrintArgs fileInfo.Options ++ (pairsFor "--stylesheet" fileInfo.CSSPaths ++
          (pairsFor "--attachment" fileInfo.Attachments ++ [fileInfo.HTMLPath, "-"])) := by
    simp only [generatePDFFromFilesArgs, foldl_append_pairs, List.append_assoc]
  have h' : generatePDFFromFilesArgs fileInfo
      = (buildWeasyPrintArgs fileInfo.Options ++ (pairsFor "--stylesheet" fileInfo.CSSPaths ++
          pairsFor "--attachment" fileInfo.Attachments)) ++ [fileInfo.HTMLPath, "-"] := by
    rw [h]; simp only [List.append_assoc]
  refine ⟨h, ?_, ?_, ?_, by decide⟩
  · rw [generatePDFFromFiles, h]
  · rw [h']
    exact (drop_take_last_two _ _ _).1
  · rw [h']
    exact (drop_take_last_two _ _ _).2

/-- C12: in from-HTML-or-URL mode the input is treated as a URL if and only if
it begins with "http://" or "https://" (compared case-sensitively) and parses
as a URL; then the sequence is the option arguments followed by the input and
"-". For every other input the source is the path of the temporary file, which
holds the input, and the sequence is the option arguments followed by that path
and "-"; a string that merely contains a URL, uses another scheme or has an
upper-case scheme is not a URL. When the temporary file cannot be prepared the
renderer is not started. -/
theorem from_html_or_url_args (lib : Library) (fs : TempFileEnv) (htmlContent : String)
    (options : Option WeasyPrintOptions) :
    (isURL lib htmlContent = true ↔
      ((HasPrefix htmlContent "http://" = true ∨ HasPrefix htmlContent "https://" = true) ∧
        lib.urlParse htmlContent = true)) ∧
    (isURL lib htmlContent = true →
      generatePDFFromHTMLCall lib fs htmlContent options
        = .ok { args := buildWeasyPrintArgs options ++ [htmlContent, "-"],
                source := .url htmlContent, written := none }) ∧
    (isURL lib htmlContent = false → ∀ path, fs.createTemp = .ok path →
      fs.writeErr = none → fs.closeErr = none →
      generatePDFFromHTMLCall lib fs htmlContent options
        = .ok { args := buildWeasyPrintArgs options ++ [path, "-"],
                source := .tempFile path, written := some (path, htmlContent) }) ∧
    (∀ call, generatePDFFromHTMLCall lib fs htmlContent options = .ok call →
      call.args = buildWeasyPrintArgs options ++ [call.source.arg, "-"] ∧
      (call.source = .url htmlContent ↔ isURL lib htmlContent = true) ∧
      (isURL lib htmlContent = false →
        ∃ path, call.source = .tempFile path ∧ call.written = some (path, htmlContent))) ∧
    (∀ run call, generatePDFFromHTMLCall lib fs htmlContent options = .ok call →
      generatePDFFromHTML lib fs run htmlContent options = executeWeasyPrint run call.args) ∧
    (∀ run err, generatePDFFromHTMLCall lib fs htmlContent options = .error err →
      generatePDFFromHTML lib fs run htmlContent options = some err) ∧
    isURL lib "HTTP://example.com/" = false ∧
    isURL lib "ftp://example.com/" = false ∧
    isURL lib "see http://example.com/" = false ∧
    isURL lib " https://example.com/" = false ∧
    (lib.urlParse "https://example.com/" = true → isURL lib "https://example.com/" = true) := by
  have hiff : isURL lib htmlContent = true ↔
      ((HasPrefix htmlContent "http://" = true ∨ HasPrefix htmlContent "https://" = true) ∧
        lib.urlParse htmlContent = true) := by
    unfold isURL
    cases h1 : HasPrefix htmlContent "http://" <;> cases h2 : HasPrefix htmlContent "https://" <;>
      cases h3 : lib.urlParse htmlContent <;> simp
  have hurl : isURL lib htmlContent = true →
      generatePDFFromHTMLCall lib fs htmlContent options
        = .ok { args := buildWeasyPrintArgs options ++ [htmlContent, "-"],
                source := .url htmlContent, written := none } := by
    intro h
    simp only [generatePDFFromHTMLCall, h, if_true]
  have hfile : isURL lib htmlContent = false → ∀ path, fs.createTemp = .ok path →
      fs.writeErr = none → fs.closeErr = none →
      generatePDFFromHTMLCall lib fs htmlContent options
        = .ok { args := buildWeasyPrintArgs options ++ [path, "-"],
                source := .tempFile path, written := some (path, htmlContent) } := by
    intro h path hc hw hcl
    simp [generatePDFFromHTMLCall, h, hc, hw, hcl]
  refine ⟨hiff, hurl, hfile, ?_, ?_, ?_, rfl, rfl, rfl, rfl, ?_⟩
  · intro call hcall
    cases hu : isURL lib htmlContent with
    | true =>
      rw [hurl hu] at hcall
      cases hcall
      exact ⟨rfl, by simp, by simp⟩
    | false =>
      cases hc : fs.createTemp with
      | error e => simp [generatePDFFromHTMLCall, hu, hc] at hcall
      | ok path =>
        cases hw : fs.writeErr with
        | some e => simp [generatePDFFromHTMLCall, hu, hc, hw] at hcall
        | none =>
          cases hcl : fs.closeErr with
          | some e => simp [generatePDFFromHTMLCall, hu, hc, hw, hcl] at hcall
          | none =>
            rw [hfile hu path hc hw hcl] at hcall
            cases hcall
            exact ⟨rfl, by simp, fun _ => ⟨path, rfl, rfl⟩⟩
  · intro run call hcall
    simp only [generatePDFFromHTML, hcall]
  · intro run err hcall
    simp only [generatePDFFromHTML, hcall]
  · intro h
    simp [isURL, h, HasPrefix]

/-! ## The request timeout -/

/-- C17, as stated, fails: a base-10 integer greater than 0 that does not fit
in an int is not returned; the default 30 is. -/
theorem timeout_env_beyond_int :
    parseDecimal "9223372036854775808" = some 9223372036854775808 ∧
    (0 : Int) < 9223372036854775808 ∧
    getTimeoutFromEnv (some "9223372036854775808") = 30 ∧
    getTimeoutFromEnv (some "9223372036854775808") ≠ 9223372036854775808 := by
  decide

/-- C17, amended: for every value of the variable, `getTimeoutFromEnv` returns
the parsed value when the variable is a base-10 integer greater than 0 and at
most 9223372036854775807 (it fits in an int), and returns the default 30 when
the variable is unset, empty, not an integer, zero, negative or larger than
that; the result is always positive. -/
theorem timeout_env_rule (env : Option String) :
    getTimeoutFromEnv env =
      (match env with
       | none => 30
       | some s =>
         match parseDecimal s with
         | some n => if 0 < n ∧ n ≤ 9223372036854775807 then n else 30
         | none => 30) ∧
    0 < getTimeoutFromEnv env ∧
    getTimeoutFromEnv none = 30 ∧
    getTimeoutFromEnv (some "") = 30 ∧
    getTimeoutFromEnv (some "soon") = 30 ∧
    getTimeoutFromEnv (some "1.5") = 30 ∧
    getTimeoutFromEnv (some "0") = 30 ∧
    getTimeoutFromEnv (some "-5") = 30 ∧
    getTimeoutFromEnv (some "45") = 45 ∧
    getTimeoutFromEnv (some "9223372036854775807") = 9223372036854775807 := by
  have hmin : minInt64 = -9223372036854775808 := by decide
  have hmax : maxInt64 = 9223372036854775807 := by decide
  have hrule : getTimeoutFromEnv env =
      (match env with
       | none => 30
       | some s =>
         match parseDecimal s with
         | some n => if 0 < n ∧ n ≤ 9223372036854775807 then n else 30
         | none => 30) := by
    cases env with
    | none => rfl
    | some s =>
      by_cases hs : s = ""
      · subst hs; rfl
      · simp only [getTimeoutFromEnv, Option.getD_some, ne_eq, hs, not_false_eq_true, if_true,
          Atoi, DefaultTimeoutSeconds, hmin, hmax]
        cases parseDecimal s with
        | none => rfl
        | some n =>
          simp only
          by_cases hr : (-9223372036854775808 : Int) ≤ n ∧ n ≤ 9223372036854775807
          · simp only [if_pos hr]
            by_cases hp : n > 0
            · rw [if_pos hp, if_pos ⟨hp, hr.2⟩]
            · rw [if_neg hp, if_neg (fun h => hp h.1)]
          · simp only [if_neg hr]
            rw [if_neg (by omega)]
  refine ⟨hrule, ?_, by decide, by decide, by decide, by decide, by decide, by decide,
    by decide, by decide⟩
  rw [hrule]
  cases env with
  | none => decide
  | some s =>
    simp only
    cases parseDecimal s with
    | none => decide
    | some n =>
      simp only
      by_cases hr : 0 < n ∧ n ≤ 9223372036854775807
      · rw [if_pos hr]; exact hr.1
      · rw [if_neg hr]; decide

/-! ## The share relay -/

theorem postFile_ok_iff (t : UploadTransport) (resp : HTTPResponse) :
    postFile t = .ok resp ↔ answered t resp := by
  obtain ⟨cf, cp, cl, nr, dr⟩ := t
  cases cf <;> cases cp <;> cases cl <;> cases nr <;> cases dr <;>
    simp [postFile, answered]

theorem postFile_error_or_ok (t : UploadTransport) :
    (∃ err, postFile t = .error err) ∨ ∃ resp, postFile t = .ok resp := by
  cases h : postFile t with
  | error err => exact Or.inl ⟨err, rfl⟩
  | ok resp => exact Or.inr ⟨resp, rfl⟩

theorem uploadToFileIO_ok_iff (lib : Library) (t : UploadTransport) (filename : String)
    (r : ShareResponse) :
    uploadToFileIO lib t filename = .ok r ↔
      ∃ resp link, answered t resp ∧ fileIOSuccess lib resp link ∧
        r = { Success := true, Link := link, Service := "file.io", Filename := filename,
              Message := "" } := by
  unfold uploadToFileIO
  cases hp : postFile t with
  | error err =>
    simp only [reduceCtorEq, false_iff, not_exists]
    rintro resp link ⟨ha, -, -⟩
    rw [(postFile_ok_iff t resp).mpr ha] at hp
    cases hp
  | ok resp =>
    have ha := (postFile_ok_iff t resp).mp hp
    constructor
    · intro h
      cases hb : resp.Body with
      | error e => simp [hb] at h
      | ok body =>
        cases hd : lib.decodeFileIO body with
        | error e => simp [hb, hd] at h
        | ok decoded =>
          cases hs : decoded.Success with
          | false => simp [hb, hd, hs] at h
          | true =>
            simp [hb, hd, hs] at h
            exact ⟨resp, decoded.Link, ha, ⟨body, decoded, hb, hd, hs, rfl⟩, h.symm⟩
    · rintro ⟨resp', link, ha', ⟨body, decoded, hb, hd, hs, hl⟩, hr⟩
      have hresp : resp' = resp := by
        have h1 := ha.2.2.2.2
        have h2 := ha'.2.2.2.2
        rw [h1] at h2
        cases h2
        rfl
      subst hresp
      simp [hb, hd, hs, hr, hl, FileIO]

theorem uploadToKITC_ok_iff (lib : Library) (t : UploadTransport) (filename : String)
    (r : ShareResponse) :
    uploadToKITC lib t filename = .ok r ↔
      ∃ resp link, answered t resp ∧ kitcSuccess lib resp link ∧
        r = { Success := true, Link := link, Service := "ki.tc", Filename := filename,
              Message := "" } := by
  unfold uploadToKITC
  cases hp : postFile t with
  | error err =>
    simp only [reduceCtorEq, false_iff, not_exists]
    rintro resp link ⟨ha, -, -⟩
    rw [(postFile_ok_iff t resp).mpr ha] at hp
    cases hp
  | ok resp =>
    have ha := (postFile_ok_iff t resp).mp hp
    constructor
    · intro h
      by_cases hc : resp.StatusCode = 201
      · cases hb : resp.Body with
        | error e => simp [hc, hb] at h
        | ok body =>
          cases hd : lib.decodeKITC body with
          | error e => simp [hc, hb, hd] at h
          | ok decoded =>
            by_cases hs : decoded.DownloadPage = ""
            · simp [hc, hb, hd, hs] at h
            · simp [hc, hb, hd, hs] at h
              exact ⟨resp, decoded.DownloadPage, ha, ⟨hc, body, decoded, hb, hd, hs, rfl⟩, h.symm⟩
      · simp [hc] at h
    · rintro ⟨resp', link, ha', ⟨hc, body, decoded, hb, hd, hs, hl⟩, hr⟩
      have hresp : resp' = resp := by
        have h1 := ha.2.2.2.2
        have h2 := ha'.2.2.2.2
        rw [h1] at h2
        cases h2
        rfl
      subst hresp
      simp [hc, hb, hd, hs, hr, hl, KITC]

theorem uploadToCVSH_ok_iff (t : UploadTransport) (filename : String) (r : ShareResponse) :
    uploadToCVSH t filename = .ok r ↔
      ∃ resp link, answered t resp ∧ cvshSuccess resp link ∧
        r = { Success := true, Link := link, Service := "c-v.sh", Filename := filename,
              Message := "" } := by
  unfold uploadToCVSH
  cases hp : postFile t with
  | error err =>
    simp only [reduceCtorEq, false_iff, not_exists]
    rintro resp link ⟨ha, -, -⟩
    rw [(postFile_ok_iff t resp).mpr ha] at hp
    cases hp
  | ok resp =>
    have ha := (postFile_ok_iff t resp).mp hp
    constructor
    · intro h
      by_cases hc : resp.StatusCode = 200
      · cases hb : resp.Body with
        | error e => simp [hc, hb] at h
        | ok body =>
          cases hs : HasPrefix (TrimSpace body) "http" with
          | false => simp [hc, hb, hs] at h
          | true =>
            simp [hc, hb, hs] at h
            exact ⟨resp, TrimSpace body, ha, ⟨hc, body, hb, hs, rfl⟩, h.symm⟩
      · simp [hc] at h
    · rintro ⟨resp', link, ha', ⟨hc, body, hb, hs, hl⟩, hr⟩
      have hresp : resp' = resp := by
        have h1 := ha.2.2.2.2
        have h2 := ha'.2.2.2.2
        rw [h1] at h2
        cases h2
        rfl
      subst hresp
      simp [hc, hb, hs, hr, hl, CVSH]

theorem not_ok_is_error {α : Type} (x : Except String α) (h : ¬ ∃ r, x = .ok r) :
    ∃ err, x = .error err := by
  cases x with
  | error err => exact ⟨err, rfl⟩
  | ok r => exact absurd ⟨r, rfl⟩ h

/-- C14: each adapter returns a share result if and only if the upload reaches
the service and the answer passes the success predicate of the adapter
(file.io: the decoded success flag is true; ki.tc: status 201 and a non-empty
file.download_page; c-v.sh: status 200 and a trimmed body starting with
"http"), and returns an error otherwise; a returned result has success true,
the service identifier that was requested, the supplied filename, and the
upstream link (for ki.tc the file.download_page value). -/
theorem share_adapters_normalise (lib : Library) (t : UploadTransport) (filename : String) :
    (∀ r, uploadToFileIO lib t filename = .ok r ↔
      ∃ resp link, answered t resp ∧ fileIOSuccess lib resp link ∧
        r = { Success := true, Link := link, Service := "file.io", Filename := filename,
              Message := "" }) ∧
    (∀ r, uploadToKITC lib t filename = .ok r ↔
      ∃ resp link, answered t resp ∧ kitcSuccess lib resp link ∧
        r = { Success := true, Link := link, Service := "ki.tc", Filename := filename,
              Message := "" }) ∧
    (∀ r, uploadToCVSH t filename = .ok r ↔
      ∃ resp link, answered t resp ∧ cvshSuccess resp link ∧
        r = { Success := true, Link := link, Service := "c-v.sh", Filename := filename,
              Message := "" }) ∧
    ((¬ ∃ resp link, answered t resp ∧ fileIOSuccess lib resp link) →
      ∃ err, uploadToFileIO lib t filename = .error err) ∧
    ((¬ ∃ resp link, answered t resp ∧ kitcSuccess lib resp link) →
      ∃ err, uploadToKITC lib t filename = .error err) ∧
    ((¬ ∃ resp link, answered t resp ∧ cvshSuccess resp link) →
      ∃ err, uploadToCVSH t filename = .error err) ∧
    (∀ openErr filePath service r,
      uploadToShareService lib { openErr := openErr, transport := t } filePath filename service
          = .ok r →
        r.Success = true ∧ r.Service = service ∧ r.Filename = filename) ∧
    HandleFileUpload sampleLibrary sampleEnv (sampleUpload (some "ki.tc"))
      = .json { Link := "https://ki.tc/f/abc", Service := "ki.tc", Success := true,
                Message := "", Filename := "document.pdf" } := by
  refine ⟨uploadToFileIO_ok_iff lib t filename, uploadToKITC_ok_iff lib t filename,
    uploadToCVSH_ok_iff t filename, ?_, ?_, ?_, ?_, by decide⟩
  · intro h
    apply not_ok_is_error
    rintro ⟨r, hr⟩
    obtain ⟨resp, link, ha, hs, -⟩ := (uploadToFileIO_ok_iff lib t filename r).mp hr
    exact h ⟨resp, link, ha, hs⟩
  · intro h
    apply not_ok_is_error
    rintro ⟨r, hr⟩
    obtain ⟨resp, link, ha, hs, -⟩ := (uploadToKITC_ok_iff lib t filename r).mp hr
    exact h ⟨resp, link, ha, hs⟩
  · intro h
    apply not_ok_is_error
    rintro ⟨r, hr⟩
    obtain ⟨resp, link, ha, hs, -⟩ := (uploadToCVSH_ok_iff t filename r).mp hr
    exact h ⟨resp, link, ha, hs⟩
  · intro openErr filePath service r hr
    unfold uploadToShareService at hr
    cases ho : openErr filePath with
    | some e => simp [ho] at hr
    | none =>
      simp only [ho] at hr
      by_cases h1 : service = FileIO
      · rw [if_pos h1] at hr
        obtain ⟨_, _, _, _, rfl⟩ := (uploadToFileIO_ok_iff lib t filename r).mp hr
        exact ⟨rfl, h1.symm, rfl⟩
      · rw [if_neg h1] at hr
        by_cases h2 : service = KITC
        · rw [if_pos h2] at hr
          obtain ⟨_, _, _, _, rfl⟩ := (uploadToKITC_ok_iff lib t filename r).mp hr
          exact ⟨rfl, h2.symm, rfl⟩
        · rw [if_neg h2] at hr
          by_cases h3 : service = CVSH
          · rw [if_pos h3] at hr
            obtain ⟨_, _, _, _, rfl⟩ := (uploadToCVSH_ok_iff t filename r).mp hr
            exact ⟨rfl, h3.symm, rfl⟩
          · rw [if_neg h3] at hr
            cases hr

/-! ## Unknown share services -/

theorem switchShareService_unknown (service : String) (current : FileShareService)
    (hs : service ≠ "file.io" ∧ service ≠ "ki.tc" ∧ service ≠ "c-v.sh") :
    switchShareService service current = current := by
  unfold switchShareService FileIO KITC CVSH
  rw [if_neg hs.1, if_neg hs.2.1, if_neg hs.2.2]

theorem applyShareServiceParam_unknown (raw : String)
    (hs : TrimSpace raw ≠ "file.io" ∧ TrimSpace raw ≠ "ki.tc" ∧ TrimSpace raw ≠ "c-v.sh") :
    applyShareServiceParam (some raw) NoShare = applyShareServiceParam none NoShare := by
  have hnone : applyShareServiceParam none NoShare = NoShare := rfl
  rw [hnone]
  unfold applyShareServiceParam
  simp only [queryGet, Option.getD_some, switchShareService_unknown _ _ hs, ite_self]

/-- C13, as stated, fails: a request whose share_service parameter is the
non-empty value "dropbox", outside the set, is not reported as an error; on
each of the three entry points it is answered with the PDF itself. -/
theorem unknown_share_service_is_served :
    HandleHTMLRender sampleLibrary sampleEnv
        { Method := "POST", Body := "<p>hi</p>", queryFilename := none,
          queryShareService := some "dropbox" } = .pdf "document.pdf" ∧
    HandleHTMLRender sampleLibrary sampleEnv
        { Method := "GET", Body := "", queryFilename := none,
          queryShareService := some "dropbox" } = .pdf "test.pdf" ∧
    HandleFileUpload sampleLibrary sampleEnv (sampleUpload (some "dropbox"))
      = .pdf "document.pdf" ∧
    ¬ ∃ message code,
        HandleFileUpload sampleLibrary sampleEnv (sampleUpload (some "dropbox"))
          = .httpError message code := by
  refine ⟨by decide, by decide, by decide, ?_⟩
  rintro ⟨message, code, h⟩
  have hpdf : HandleFileUpload sampleLibrary sampleEnv (sampleUpload (some "dropbox"))
      = .pdf "document.pdf" := by decide
  rw [hpdf] at h
  cases h

/-- C13, amended: for every discriminator outside file.io, ki.tc, c-v.sh the
function uploadToShareService returns an error and no share result (the
unsupported-service error once the file is open); a request whose share_service
parameter is such a value is served exactly as if no sharing had been requested,
on the POST and GET forms of the HTML endpoint and, after trimming white space,
on the file-upload endpoint. -/
theorem unsupported_share_service (lib : Library) (env : Env) (service : String)
    (hs : service ≠ "file.io" ∧ service ≠ "ki.tc" ∧ service ≠ "c-v.sh") :
    (∀ filePath filename,
      ∃ err, uploadToShareService lib env.share filePath filename service = .error err) ∧
    (∀ filePath filename, env.share.openErr filePath = none →
      uploadToShareService lib env.share filePath filename service
        = .error ("unsupported sharing service: " ++ service)) ∧
    (∀ (req : HTMLRequest) qf qs, service ≠ "" → req.ShareService = service →
      renderPost lib env req qf qs = renderPost lib env { req with ShareService := "" } qf none) ∧
    (∀ req qf, req.ShareService = "" →
      renderPost lib env req qf (some service) = renderPost lib env req qf none) ∧
    (∀ qf, renderGet lib env qf (some service) = renderGet lib env qf none) ∧
    (∀ (raw : String) (r : UploadRequest), TrimSpace raw = service →
      HandleFileUpload lib env { r with queryShareService := some raw }
        = HandleFileUpload lib env { r with queryShareService := none }) := by
  have hunsupported : ∀ filePath filename, env.share.openErr filePath = none →
      uploadToShareService lib env.share filePath filename service
        = .error ("unsupported sharing service: " ++ service) := by
    intro filePath filename ho
    unfold uploadToShareService FileIO KITC CVSH
    simp only [ho]
    rw [if_neg hs.1, if_neg hs.2.1, if_neg hs.2.2]
  have hempty : switchShareService "" NoShare = NoShare := by decide
  refine ⟨?_, hunsupported, ?_, ?_, ?_, ?_⟩
  · intro filePath filename
    cases ho : env.share.openErr filePath with
    | none => exact ⟨_, hunsupported filePath filename ho⟩
    | some e => exact ⟨"failed to open PDF file: " ++ e, by simp [uploadToShareService, ho]⟩
  · intro req qf qs hne hreq
    simp only [renderPost, hreq, if_neg hne, switchShareService_unknown _ _ hs, queryGet,
      Option.getD_none, if_true, hempty]
  · intro req qf hreq
    simp only [renderPost, hreq, if_true, queryGet, Option.getD_some, Option.getD_none,
      switchShareService_unknown _ _ hs, hempty]
  · intro qf
    simp only [renderGet, queryGet, Option.getD_some, Option.getD_none,
      switchShareService_unknown _ _ hs, hempty]
  · intro raw r hraw
    have hraw' : TrimSpace raw ≠ "file.io" ∧ TrimSpace raw ≠ "ki.tc" ∧ TrimSpace raw ≠ "c-v.sh" := by
      rw [hraw]; exact hs
    simp only [HandleFileUpload, processUploadedFiles, applyShareServiceParam_unknown raw hraw']

theorem unsupported_share_service_witness :
    ("dropbox" ≠ "file.io" ∧ "dropbox" ≠ "ki.tc" ∧ "dropbox" ≠ "c-v.sh") ∧
    uploadToShareService sampleLibrary sampleEnv.share "/tmp/pdfshare-1.pdf" "a.pdf" "dropbox"
      = .error ("unsupported sharing service: " ++ "dropbox") :=
  ⟨by decide,
    (unsupported_share_service sampleLibrary sampleEnv "dropbox" (by decide)).2.1
      "/tmp/pdfshare-1.pdf" "a.pdf" rfl⟩

/-! ## Status codes of the file-upload flow -/

theorem HandleFileUpload_processed (lib : Library) (env : Env) (r : UploadRequest)
    (form : MultipartForm) (tempDir : String)
    (hct : HasPrefix r.ContentType "multipart/form-data" = true) (hform : r.Form = .ok form)
    (hdir : env.mkdirTemp = .ok tempDir) :
    HandleFileUpload lib env r =
      match processUploadedFiles lib env r.queryFilename r.queryShareService form tempDir with
      | .error err => .httpError err 400
      | .ok fileInfo =>
        respond lib env (generatedFromFiles env fileInfo) fileInfo.Filename
          fileInfo.ShareService := by
  simp only [HandleFileUpload, hct, hform, hdir, not_true_eq_false, if_false, StatusBadRequest]

theorem generatedFromFiles_err (env : Env) (fileInfo : UploadedFileInfo) :
    (generatedFromFiles env fileInfo).err =
      match env.run (generatePDFFromFilesArgs fileInfo) with
      | some err => some ("weasyprint execution failed: " ++ err)
      | none => none := rfl

theorem saveAllFiles_first_create_fails (lib : Library) (env : Env) (tempDir field : String)
    (fh : FileHeader) (rest : List FileHeader) (more : List (String × List FileHeader))
    (fileInfo : UploadedFileInfo) (e : String) (hopen : env.openUploaded fh = none)
    (hcreate : env.createFile (lib.filepathJoin tempDir fh.Filename) = some e) :
    saveAllFiles lib env tempDir ((field, fh :: rest) :: more) fileInfo
      = .error ("failed to save file: " ++ ("failed to create target file: " ++ e)) := by
  simp only [saveAllFiles, saveFieldFiles, saveUploadedFile, hopen, hcreate]

/-- C15: in the file-upload flow a wrong content type, a form that does not
parse, malformed options JSON and a missing html file give 400; a failure to
create the temporary directory or the temporary PDF gives 500 with the generic
message; with a share service a render failure gives 500 with a generic message
and a share-upload failure gives 500 with the upstream detail. The claim fails
in two places. When an uploaded file cannot be saved, or the default stylesheet
cannot be written, the answer is 400 and the message carries the underlying
error text, as the evaluation on a full disk shows. Without a share service the
renderer writes into the response: a render failure gives 500 only when nothing
was written, and once output was written the status is 200 and the message is
appended to the body, as the evaluation with a killed renderer shows. -/
theorem file_upload_status_by_step (lib : Library) (env : Env) (r : UploadRequest) :
    (HasPrefix r.ContentType "multipart/form-data" = false →
      HandleFileUpload lib env r = .httpError "multipart/form-data request required" 400) ∧
    (∀ err, HasPrefix r.ContentType "multipart/form-data" = true → r.Form = .error err →
      HandleFileUpload lib env r = .httpError ("Form parsing failed: " ++ err) 400) ∧
    (∀ form err, HasPrefix r.ContentType "multipart/form-data" = true → r.Form = .ok form →
      env.mkdirTemp = .error err →
      HandleFileUpload lib env r = .httpError "Internal server error" 500) ∧
    (∀ form tempDir err, HasPrefix r.ContentType "multipart/form-data" = true →
      r.Form = .ok form → env.mkdirTemp = .ok tempDir →
      processUploadedFiles lib env r.queryFilename r.queryShareService form tempDir
        = .error err →
      HandleFileUpload lib env r = .httpError err 400) ∧
    (∀ form tempDir fileInfo, HasPrefix r.ContentType "multipart/form-data" = true →
      r.Form = .ok form → env.mkdirTemp = .ok tempDir →
      processUploadedFiles lib env r.queryFilename r.queryShareService form tempDir
        = .ok fileInfo →
      (fileInfo.ShareService ≠ NoShare →
        (∀ err, env.createTempPDF = .error err →
          HandleFileUpload lib env r = .httpError "Internal server error" 500) ∧
        (∀ path err, env.createTempPDF = .ok path →
          env.run (generatePDFFromFilesArgs fileInfo) = some err →
          HandleFileUpload lib env r = .httpError "PDF generation failed" 500) ∧
        (∀ path err, env.createTempPDF = .ok path →
          env.run (generatePDFFromFilesArgs fileInfo) = none →
          uploadToShareService lib env.share path fileInfo.Filename fileInfo.ShareService
            = .error err →
          HandleFileUpload lib env r
            = .httpError ("Failed to upload to sharing service: " ++ err) 500)) ∧
      (fileInfo.ShareService = NoShare →
        (∀ err, env.run (generatePDFFromFilesArgs fileInfo) = some err →
          env.stdout (generatePDFFromFilesArgs fileInfo) = none →
          HandleFileUpload lib env r = .httpError "PDF generation failed" 500) ∧
        (∀ err output, env.run (generatePDFFromFilesArgs fileInfo) = some err →
          env.stdout (generatePDFFromFilesArgs fileInfo) = some output →
          HandleFileUpload lib env r
            = .pdfThenError fileInfo.Filename output "PDF generation failed" ∧
          (HandleFileUpload lib env r).status = 200))) ∧
    (∀ qf qs form tempDir fileInfo first more,
      saveAllFiles lib env tempDir form.File
          { HTMLPath := "", CSSPaths := [], Attachments := [],
            Options := some getDefaultOptions,
            Filename := applyFilenameParam lib qf "document.pdf",
            ShareService := applyShareServiceParam qs NoShare } = .ok fileInfo →
      formValue "options" form.Value = some (first :: more) → lib.decodeOptions first = none →
      processUploadedFiles lib env qf qs form tempDir = .error "invalid JSON format options") ∧
    (∀ qf qs form tempDir fileInfo fileInfo',
      saveAllFiles lib env tempDir form.File
          { HTMLPath := "", CSSPaths := [], Attachments := [],
            Options := some getDefaultOptions,
            Filename := applyFilenameParam lib qf "document.pdf",
            ShareService := applyShareServiceParam qs NoShare } = .ok fileInfo →
      applyOptionsField lib form fileInfo = .ok fileInfo' → fileInfo'.HTMLPath = "" →
      processUploadedFiles lib env qf qs form tempDir = .error "missing HTML file") ∧
    (∀ qf qs form tempDir field fh rest more e,
      form.File = (field, fh :: rest) :: more → env.openUploaded fh = none →
      env.createFile (lib.filepathJoin tempDir fh.Filename) = some e →
      processUploadedFiles lib env qf qs form tempDir
        = .error ("failed to save file: " ++ ("failed to create target file: " ++ e))) ∧
    (∀ qf qs form tempDir fileInfo fileInfo' e,
      saveAllFiles lib env tempDir form.File
          { HTMLPath := "", CSSPaths := [], Attachments := [],
            Options := some getDefaultOptions,
            Filename := applyFilenameParam lib qf "document.pdf",
            ShareService := applyShareServiceParam qs NoShare } = .ok fileInfo →
      applyOptionsField lib form fileInfo = .ok fileInfo' → fileInfo'.HTMLPath ≠ "" →
      fileInfo'.CSSPaths = [] →
      env.writeFile (lib.filepathJoin tempDir "default.css") = some e →
      processUploadedFiles lib env qf qs form tempDir
        = .error ("failed to create default CSS: " ++ e)) ∧
    HandleFileUpload sampleLibrary fullDiskEnv (sampleUpload none)
      = .httpError ("failed to save file: failed to create target file: " ++
          "open /tmp/pdfgen-1/index.html: no space left on device") 400 ∧
    HandleFileUpload sampleLibrary killedRendererEnv (sampleUpload none)
      = .pdfThenError "document.pdf" "%PDF-1.7" "PDF generation failed" ∧
    (HandleFileUpload sampleLibrary killedRendererEnv (sampleUpload none)).status = 200 ∧
    HandleFileUpload sampleLibrary silentRendererEnv (sampleUpload none)
      = .httpError "PDF generation failed" 500 ∧
    HandleFileUpload sampleLibrary killedRendererEnv (sampleUpload (some "ki.tc"))
      = .httpError "PDF generation failed" 500 := by
  refine ⟨?_, ?_, ?_, ?_, ?_, ?_, ?_, ?_, ?_, by decide, by decide, by decide, by decide,
    by decide⟩
  · intro h
    simp [HandleFileUpload, h, StatusBadRequest]
  · intro err h hf
    simp [HandleFileUpload, h, hf, StatusBadRequest]
  · intro form err h hf hd
    simp [HandleFileUpload, h, hf, hd, StatusInternalServerError]
  · intro form tempDir err h hf hd hp
    rw [HandleFileUpload_processed lib env r form tempDir h hf hd, hp]
  · intro form tempDir fileInfo h hf hd hp
    have hres : HandleFileUpload lib env r
        = respond lib env (generatedFromFiles env fileInfo) fileInfo.Filename
            fileInfo.ShareService := by
      rw [HandleFileUpload_processed lib env r form tempDir h hf hd, hp]
    have hgen := generatedFromFiles_err env fileInfo
    have hout : (generatedFromFiles env fileInfo).output
        = env.stdout (generatePDFFromFilesArgs fileInfo) := rfl
    constructor
    · intro hs
      refine ⟨?_, ?_, ?_⟩
      · intro err hc
        rw [hres]
        simp [respond, hs, hc, StatusInternalServerError]
      · intro path err hc hg
        rw [hg] at hgen
        rw [hres]
        simp [respond, hs, hc, hgen, StatusInternalServerError]
      · intro path err hc hg hu
        rw [hg] at hgen
        rw [hres]
        simp [respond, hs, hc, hgen, hu, StatusInternalServerError]
    · intro hs
      refine ⟨?_, ?_⟩
      · intro err hg ho
        rw [hg] at hgen
        rw [ho] at hout
        rw [hres]
        simp [respond, hs, hgen, hout, StatusInternalServerError]
      · intro err output hg ho
        rw [hg] at hgen
        rw [ho] at hout
        have hval : HandleFileUpload lib env r
            = .pdfThenError fileInfo.Filename output "PDF generation failed" := by
          rw [hres]
          simp [respond, hs, hgen, hout]
        exact ⟨hval, by rw [hval]; rfl⟩
  · intro qf qs form tempDir fileInfo first more hsave hval hdec
    simp only [processUploadedFiles, hsave, applyOptionsField, hval, hdec]
  · intro qf qs form tempDir fileInfo fileInfo' hsave hopt hhtml
    simp only [processUploadedFiles, hsave, hopt, hhtml, if_true]
  · intro qf qs form tempDir field fh rest more e hfile hopen hcreate
    simp only [processUploadedFiles, hfile,
      saveAllFiles_first_create_fails lib env tempDir field fh rest more _ e hopen hcreate]
  · intro qf qs form tempDir fileInfo fileInfo' e hsave hopt hhtml hcss hw
    simp only [processUploadedFiles, hsave, hopt, hhtml, if_false, hcss, List.length_nil,
      if_true, createDefaultCSS, hw]

/-! ## The filename rule -/

theorem dropWhile_head_not (p : Char → Bool) (l : List Char) (c : Char) (rest : List Char)
    (h : l.dropWhile p = c :: rest) : p c = false := by
  induction l with
  | nil => simp at h
  | cons a l ih =>
    rw [List.dropWhile_cons] at h
    by_cases ha : p a = true
    · rw [if_pos ha] at h; exact ih h
    · rw [if_neg ha] at h
      cases h
      simpa using ha

theorem rdropWhile_last_not_space (p : Char → Bool) (l init : List Char) (c : Char)
    (h : l.rdropWhile p = init ++ [c]) : p c = false := by
  have hidem : (init ++ [c]).rdropWhile p = init ++ [c] := by
    rw [← h, List.rdropWhile_idempotent]
  cases hc : p c with
  | false => rfl
  | true =>
    rw [List.rdropWhile_concat_pos p init c hc] at hidem
    have hlen := (List.rdropWhile_prefix p (l := init)).length_le
    rw [hidem] at hlen
    simp at hlen

theorem trim_head_not_space (l : List Char) (c : Char) (rest : List Char)
    (h : (l.dropWhile isSpace).rdropWhile isSpace = c :: rest) : isSpace c = false := by
  obtain ⟨s, hs⟩ := List.rdropWhile_prefix isSpace (l := l.dropWhile isSpace)
  rw [h] at hs
  exact dropWhile_head_not isSpace l c (rest ++ s) hs.symm

theorem trim_of_trimmed (t : List Char)
    (hhead : ∀ c rest, t = c :: rest → isSpace c = false)
    (hlast : ∀ init c, t = init ++ [c] → isSpace c = false) :
    (t.dropWhile isSpace).rdropWhile isSpace = t := by
  have hd : t.dropWhile isSpace = t := by
    cases t with
    | nil => rfl
    | cons c rest =>
      rw [List.dropWhile_cons, if_neg (by simp [hhead c rest rfl])]
  rw [hd]
  rcases List.eq_nil_or_concat t with h | ⟨init, c, h⟩
  · rw [h]; rfl
  · rw [List.concat_eq_append] at h
    rw [h]
    exact List.rdropWhile_concat_neg isSpace init c (by simp [hlast init c h])

theorem trim_idempotent (l : List Char) :
    ((((l.dropWhile isSpace).rdropWhile isSpace).dropWhile isSpace).rdropWhile isSpace)
      = (l.dropWhile isSpace).rdropWhile isSpace :=
  trim_of_trimmed _ (fun c rest h => trim_head_not_space l c rest h)
    (fun init c h => rdropWhile_last_not_space isSpace _ init c h)

theorem trim_append_pdf (t : List Char) (hne : t ≠ [])
    (hhead : ∀ c rest, t = c :: rest → isSpace c = false) :
    ((t ++ ['.', 'p', 'd', 'f']).dropWhile isSpace).rdropWhile isSpace
      = t ++ ['.', 'p', 'd', 'f'] := by
  apply trim_of_trimmed
  · intro c rest h
    cases t with
    | nil => exact absurd rfl hne
    | cons a t' =>
      rw [List.cons_append] at h
      have hac : a = c := (List.cons.inj h).1
      rw [← hac]
      exact hhead a t' rfl
  · intro init c h
    have h' : (t ++ ['.', 'p', 'd']) ++ ['f'] = init ++ [c] := by
      rw [← h]; simp
    have hc : c = 'f' := by
      have := List.append_inj_right' h' rfl
      cases this
      rfl
    rw [hc]
    decide

theorem TrimSpace_idempotent (s : String) : TrimSpace (TrimSpace s) = TrimSpace s := by
  show String.mk _ = String.mk _
  rw [show (TrimSpace s).toList = (s.toList.dropWhile isSpace).rdropWhile isSpace from rfl,
    trim_idempotent]

theorem TrimSpace_append_pdf (s : String) (hne : TrimSpace s ≠ "") :
    TrimSpace (TrimSpace s ++ ".pdf") = TrimSpace s ++ ".pdf" := by
  have hl : (TrimSpace s ++ ".pdf").toList
      = (s.toList.dropWhile isSpace).rdropWhile isSpace ++ ['.', 'p', 'd', 'f'] := by
    show (TrimSpace s ++ ".pdf").data = _
    rw [String.data_append]
    rfl
  have hne' : (s.toList.dropWhile isSpace).rdropWhile isSpace ≠ [] := by
    intro h
    apply hne
    show String.mk _ = ""
    rw [h]
  apply String.ext
  show ((TrimSpace s ++ ".pdf").toList.dropWhile isSpace).rdropWhile isSpace
    = (TrimSpace s ++ ".pdf").data
  rw [hl, trim_append_pdf _ hne' (fun c rest h => trim_head_not_space s.toList c rest h)]
  exact hl.symm

theorem HasSuffix_ToLower_append_pdf (lib : Library) (s : String) :
    HasSuffix (ToLower lib (s ++ ".pdf")) ".pdf" = true := by
  have hl : (ToLower lib (s ++ ".pdf")).toList
      = s.toList.map (toLowerRune lib) ++ ['.', 'p', 'd', 'f'] := by
    show ((s ++ ".pdf").toList.map (toLowerRune lib)) = _
    have : (s ++ ".pdf").toList = s.toList ++ ['.', 'p', 'd', 'f'] := by
      show (s ++ ".pdf").data = _
      rw [String.data_append]
      rfl
    rw [this, List.map_append]
    rfl
  unfold HasSuffix
  rw [hl, List.isSuffixOf_iff_suffix]
  exact ⟨_, rfl⟩

theorem applyFilenameParam_eq_spec (lib : Library) (param : Option String) :
    applyFilenameParam lib param "document.pdf" = specFilename lib param := by
  cases param with
  | none => rfl
  | some value =>
    by_cases hlen : value.length > 0
    · simp only [applyFilenameParam, specFilename, queryGet, Option.getD_some, if_pos hlen]
      by_cases ht : TrimSpace value = ""
      · simp only [ht, ne_eq, not_true_eq_false, if_false, if_true]
      · simp only [ne_eq, ht, not_false_eq_true, if_true, if_false]
        cases HasSuffix (ToLower lib (TrimSpace value)) ".pdf" <;> simp
    · have hv : value = "" := by
        apply String.ext
        have : value.data.length = 0 := by
          have := hlen
          simp only [String.length, gt_iff_lt, not_lt, Nat.le_zero_eq] at this
          exact this
        exact List.length_eq_zero.mp this
      subst hv
      rfl

theorem specFilename_ends_in_pdf (lib : Library) (param : Option String) :
    HasSuffix (ToLower lib (specFilename lib param)) ".pdf" = true := by
  cases param with
  | none => rfl
  | some value =>
    simp only [specFilename]
    by_cases ht : TrimSpace value = ""
    · rw [if_pos ht]; rfl
    · rw [if_neg ht]
      cases hs : HasSuffix (ToLower lib (TrimSpace value)) ".pdf" with
      | true => simp only [if_true]; exact hs
      | false =>
        simp only [Bool.false_eq_true, if_false]
        exact HasSuffix_ToLower_append_pdf lib _

theorem specFilename_idempotent (lib : Library) (param : Option String) :
    specFilename lib (some (specFilename lib param)) = specFilename lib param := by
  have hsuf := specFilename_ends_in_pdf lib param
  have htrim : TrimSpace (specFilename lib param) = specFilename lib param := by
    cases param with
    | none => rfl
    | some value =>
      simp only [specFilename]
      by_cases ht : TrimSpace value = ""
      · rw [if_pos ht]; rfl
      · rw [if_neg ht]
        cases hs : HasSuffix (ToLower lib (TrimSpace value)) ".pdf" with
        | true => simp only [if_true]; exact TrimSpace_idempotent value
        | false =>
          simp only [Bool.false_eq_true, if_false]
          exact TrimSpace_append_pdf value ht
  have hne : specFilename lib param ≠ "" := by
    intro h
    rw [h] at hsuf
    have hfalse : HasSuffix (ToLower lib "") ".pdf" = false := rfl
    rw [hfalse] at hsuf
    cases hsuf
  show (if TrimSpace (specFilename lib param) = "" then "document.pdf"
    else if HasSuffix (ToLower lib (TrimSpace (specFilename lib param))) ".pdf" = true then
      TrimSpace (specFilename lib param)
    else TrimSpace (specFilename lib param) ++ ".pdf") = _
  rw [htrim, if_neg hne, if_pos hsuf]

theorem classifyFile_Filename (fileInfo : UploadedFileInfo) (fieldName filePath : String) :
    (classifyFile fileInfo fieldName filePath).Filename = fileInfo.Filename := by
  unfold classifyFile
  split_ifs <;> rfl

theorem saveFieldFiles_Filename (lib : Library) (env : Env) (tempDir fieldName : String)
    (files : List FileHeader) :
    ∀ fileInfo result, saveFieldFiles lib env tempDir fieldName files fileInfo = .ok result →
      result.Filename = fileInfo.Filename := by
  induction files with
  | nil =>
    intro fileInfo result h
    simp only [saveFieldFiles, Except.ok.injEq] at h
    rw [← h]
  | cons fh rest ih =>
    intro fileInfo result h
    simp only [saveFieldFiles] at h
    cases hs : saveUploadedFile lib env fh tempDir with
    | error e => simp [hs] at h
    | ok filePath =>
      simp only [hs] at h
      rw [ih _ _ h, classifyFile_Filename]

theorem saveAllFiles_Filename (lib : Library) (env : Env) (tempDir : String)
    (fields : List (String × List FileHeader)) :
    ∀ fileInfo result, saveAllFiles lib env tempDir fields fileInfo = .ok result →
      result.Filename = fileInfo.Filename := by
  induction fields with
  | nil =>
    intro fileInfo result h
    simp only [saveAllFiles, Except.ok.injEq] at h
    rw [← h]
  | cons field rest ih =>
    obtain ⟨fieldName, files⟩ := field
    intro fileInfo result h
    simp only [saveAllFiles] at h
    cases hs : saveFieldFiles lib env tempDir fieldName files fileInfo with
    | error e => simp [hs] at h
    | ok mid =>
      simp only [hs] at h
      rw [ih _ _ h, saveFieldFiles_Filename lib env tempDir fieldName files _ _ hs]

theorem applyOptionsField_Filename (lib : Library) (form : MultipartForm)
    (fileInfo result : UploadedFileInfo) (h : applyOptionsField lib form fileInfo = .ok result) :
    result.Filename = fileInfo.Filename := by
  unfold applyOptionsField at h
  split at h
  · split at h
    · cases h
    · simp only [Except.ok.injEq] at h
      rw [← h]
  · simp only [Except.ok.injEq] at h
    rw [← h]

theorem processUploadedFiles_Filename (lib : Library) (env : Env) (qf qs : Option String)
    (form : MultipartForm) (tempDir : String) (fileInfo : UploadedFileInfo)
    (h : processUploadedFiles lib env qf qs form tempDir = .ok fileInfo) :
    fileInfo.Filename = applyFilenameParam lib qf "document.pdf" := by
  simp only [processUploadedFiles] at h
  split at h
  · cases h
  · rename_i saved hsaved
    have h1 := saveAllFiles_Filename lib env tempDir form.File _ _ hsaved
    split at h
    · cases h
    · rename_i opt hopt
      have h2 := applyOptionsField_Filename lib form _ _ hopt
      split_ifs at h
      · split at h
        · cases h
        · simp only [Except.ok.injEq] at h
          rw [← h]
          show opt.Filename = _
          rw [h2, h1]
      · simp only [Except.ok.injEq] at h
        rw [← h, h2, h1]


set_option maxRecDepth 100000 in
theorem asciiLower_cases : ∀ n, n < 128 →
    ((if 'A' ≤ Char.ofNat n ∧ Char.ofNat n ≤ 'Z' then
        Char.ofNat ((Char.ofNat n).toNat + ('a'.toNat - 'A'.toNat)) else Char.ofNat n) = '.' ↔
      Char.ofNat n = '.') ∧
    ((if 'A' ≤ Char.ofNat n ∧ Char.ofNat n ≤ 'Z' then
        Char.ofNat ((Char.ofNat n).toNat + ('a'.toNat - 'A'.toNat)) else Char.ofNat n) = 'p' ↔
      (Char.ofNat n = 'p' ∨ Char.ofNat n = 'P')) ∧
    ((if 'A' ≤ Char.ofNat n ∧ Char.ofNat n ≤ 'Z' then
        Char.ofNat ((Char.ofNat n).toNat + ('a'.toNat - 'A'.toNat)) else Char.ofNat n) = 'd' ↔
      (Char.ofNat n = 'd' ∨ Char.ofNat n = 'D')) ∧
    ((if 'A' ≤ Char.ofNat n ∧ Char.ofNat n ≤ 'Z' then
        Char.ofNat ((Char.ofNat n).toNat + ('a'.toNat - 'A'.toNat)) else Char.ofNat n) = 'f' ↔
      (Char.ofNat n = 'f' ∨ Char.ofNat n = 'F')) := by
  decide

theorem toLowerRune_pdf (lib : Library)
    (hlow : ∀ c : Char, 128 ≤ c.toNat → lib.unicodeLower c ∉ ['.', 'p', 'd', 'f']) (c : Char) :
    (toLowerRune lib c = '.' ↔ c = '.') ∧
    (toLowerRune lib c = 'p' ↔ (c = 'p' ∨ c = 'P')) ∧
    (toLowerRune lib c = 'd' ↔ (c = 'd' ∨ c = 'D')) ∧
    (toLowerRune lib c = 'f' ↔ (c = 'f' ∨ c = 'F')) := by
  by_cases hc : c.toNat < 128
  · have h := asciiLower_cases c.toNat hc
    rw [Char.ofNat_toNat] at h
    unfold toLowerRune
    rw [if_pos hc]
    exact h
  · have hu := hlow c (by omega)
    simp only [List.mem_cons, List.mem_singleton, List.not_mem_nil, or_false, not_or] at hu
    have hne : ∀ x : Char, x.toNat < 128 → c ≠ x := by
      intro x hx h
      rw [h] at hc
      exact hc hx
    unfold toLowerRune
    rw [if_neg hc]
    refine ⟨⟨fun h => absurd h hu.1, fun h => absurd h (hne _ (by decide))⟩,
      ⟨fun h => absurd h hu.2.1, ?_⟩, ⟨fun h => absurd h hu.2.2.1, ?_⟩,
      ⟨fun h => absurd h hu.2.2.2, ?_⟩⟩
    · rintro (h | h)
      · exact absurd h (hne _ (by decide))
      · exact absurd h (hne _ (by decide))
    · rintro (h | h)
      · exact absurd h (hne _ (by decide))
      · exact absurd h (hne _ (by decide))
    · rintro (h | h)
      · exact absurd h (hne _ (by decide))
      · exact absurd h (hne _ (by decide))

theorem HasSuffix_ToLower_pdf_eq (lib : Library)
    (hlow : ∀ c : Char, 128 ≤ c.toNat → lib.unicodeLower c ∉ ['.', 'p', 'd', 'f']) (s : String) :
    HasSuffix (ToLower lib s) ".pdf" = endsInPdfIgnoringCase s := by
  have hL : HasSuffix (ToLower lib s) ".pdf"
      = List.isPrefixOf ['f', 'd', 'p', '.'] (s.toList.reverse.map (toLowerRune lib)) := by
    show List.isSuffixOf ['.', 'p', 'd', 'f'] (s.toList.map (toLowerRune lib)) = _
    rw [List.isSuffixOf, List.map_reverse]
    rfl
  rw [hL]
  unfold endsInPdfIgnoringCase
  generalize s.toList.reverse = r
  rcases r with _ | ⟨a, _ | ⟨b, _ | ⟨c, _ | ⟨d, rest⟩⟩⟩⟩
  · rfl
  · simp [List.isPrefixOf]
  · simp [List.isPrefixOf]
  · simp [List.isPrefixOf]
  · have ha := (toLowerRune_pdf lib hlow a).2.2.2
    have hb := (toLowerRune_pdf lib hlow b).2.2.1
    have hc := (toLowerRune_pdf lib hlow c).2.1
    have hd := (toLowerRune_pdf lib hlow d).1
    rw [Bool.eq_iff_iff]
    simp only [List.map_cons, List.isPrefixOf, Bool.and_eq_true, beq_iff_eq,
      decide_eq_true_eq]
    have ha' : 'f' = toLowerRune lib a ↔ (a = 'f' ∨ a = 'F') := eq_comm.trans ha
    have hb' : 'd' = toLowerRune lib b ↔ (b = 'd' ∨ b = 'D') := eq_comm.trans hb
    have hc' : 'p' = toLowerRune lib c ↔ (c = 'p' ∨ c = 'P') := eq_comm.trans hc
    have hd' : '.' = toLowerRune lib d ↔ d = '.' := eq_comm.trans hd
    rw [ha', hb', hc', hd']
    constructor
    · rintro ⟨h1, h2, h3, h4, -⟩
      exact ⟨h4, h3, h2, h1⟩
    · rintro ⟨h4, h3, h2, h1⟩
      exact ⟨h1, h2, h3, h4, trivial⟩

/-- C16: for every value of the filename query parameter the filename recorded
by processUploadedFiles is "document.pdf" when the parameter is absent, empty
or only white space, and otherwise the trimmed parameter with ".pdf" appended
unless its lower-cased form already ends in ".pdf"; the result always ends in
".pdf" in lower-cased form, and applying the rule to its own result changes
nothing. When the case table above ASCII never yields a dot, p, d or f, the
lower-cased comparison is the ASCII case-insensitive comparison of the last
four characters. -/
theorem filename_rule (lib : Library) (param : Option String) :
    applyFilenameParam lib param "document.pdf" = specFilename lib param ∧
    (∀ env qs form tempDir fileInfo,
      processUploadedFiles lib env param qs form tempDir = .ok fileInfo →
        fileInfo.Filename = specFilename lib param) ∧
    HasSuffix (ToLower lib (applyFilenameParam lib param "document.pdf")) ".pdf" = true ∧
    applyFilenameParam lib (some (applyFilenameParam lib param "document.pdf")) "document.pdf"
      = applyFilenameParam lib param "document.pdf" ∧
    ((∀ c : Char, 128 ≤ c.toNat → lib.unicodeLower c ∉ ['.', 'p', 'd', 'f']) →
      ∀ s, HasSuffix (ToLower lib s) ".pdf" = endsInPdfIgnoringCase s) ∧
    applyFilenameParam lib none "document.pdf" = "document.pdf" ∧
    applyFilenameParam lib (some "") "document.pdf" = "document.pdf" ∧
    applyFilenameParam lib (some " \t ") "document.pdf" = "document.pdf" ∧
    applyFilenameParam lib (some " report ") "document.pdf" = "report.pdf" ∧
    applyFilenameParam lib (some "Report.PDF") "document.pdf" = "Report.PDF" ∧
    applyFilenameParam lib (some "a.pdf.txt") "document.pdf" = "a.pdf.txt.pdf" := by
  refine ⟨applyFilenameParam_eq_spec lib param, ?_, ?_, ?_, HasSuffix_ToLower_pdf_eq lib,
    rfl, rfl, rfl, rfl, rfl, rfl⟩
  · intro env qs form tempDir fileInfo h
    rw [processUploadedFiles_Filename lib env param qs form tempDir fileInfo h,
      applyFilenameParam_eq_spec]
  · rw [applyFilenameParam_eq_spec]
    exact specFilename_ends_in_pdf lib param
  · rw [applyFilenameParam_eq_spec, applyFilenameParam_eq_spec]
    exact specFilename_idempotent lib param

end RestWeasyprint
